import Mathlib

/-!
# packet-parser: a shallow embedding of `parse_packet.c`

The C function `parse_packet(buf, len, out)` walks an Ethernet frame
(Ethernet header, up to two VLAN tags, IPv4 or IPv6, TCP/UDP/ICMP/ICMPv6)
and fills a `parsed_packet` record.

Embedding conventions.

* `uint8_t` is `Byte = Fin 256`; the buffer is a `List Byte`.  The pointers
  `buf` and `out` are non-null (the guard of line 32 is not taken), and `out`
  is zeroed by the `memset` of line 33, so its previous content is irrelevant.
* Every access `buf[i]` goes through `rd`, which answers `none` when `i` is
  not an index of the buffer.  `parse_packet` therefore returns an `Option`:
  `none` means that the C code would have read outside the buffer.
* `size_t` is 64 bits wide: the sum inside `have` is taken modulo `2^64`.
  The narrowing conversions to `uint8_t` and `uint16_t` are written as
  explicit `% 256` and `% 65536`.
* A `return` in the middle of the function is the constructor `flow.ret`,
  carrying the status and the record as it stands at that point.
-/

namespace PacketParser

/-! ## Types of `parse_packet.h` -/

/-- The C type `uint8_t`. -/
abbrev Byte := Fin 256

inductive pp_status where
  | PP_OK
  | PP_TRUNCATED
  | PP_UNSUPPORTED
  | PP_MALFORMED
  deriving DecidableEq, Repr

inductive l3_type where
  | L3_NONE
  | L3_IPV4
  | L3_IPV6
  deriving DecidableEq, Repr

inductive l4_type where
  | L4_NONE
  | L4_TCP
  | L4_UDP
  | L4_ICMP
  | L4_ICMPV6
  deriving DecidableEq, Repr

open pp_status l3_type l4_type

/-- The record `parsed_packet` (parse_packet.h, lines 19-46). -/
structure parsed_packet where
  dst_mac : List Byte
  src_mac : List Byte
  vlan_id : List Nat
  vlan_count : Int
  ethertype : Nat
  l3 : l3_type
  src_ip : List Byte
  dst_ip : List Byte
  ip_ttl_hop : Byte
  ip_proto : Byte
  ip_payload_len : Nat
  l4 : l4_type
  src_port : Nat
  dst_port : Nat
  icmp_type : Byte
  icmp_code : Byte
  l2_len : Nat
  l3_len : Nat
  l4_offset : Nat
  deriving DecidableEq, Repr

/-- The record after `memset(out, 0, sizeof(*out))` (line 33). -/
def zero_packet : parsed_packet where
  dst_mac := List.replicate 6 0
  src_mac := List.replicate 6 0
  vlan_id := List.replicate 2 0
  vlan_count := 0
  ethertype := 0
  l3 := L3_NONE
  src_ip := List.replicate 16 0
  dst_ip := List.replicate 16 0
  ip_ttl_hop := 0
  ip_proto := 0
  ip_payload_len := 0
  l4 := L4_NONE
  src_port := 0
  dst_port := 0
  icmp_type := 0
  icmp_code := 0
  l2_len := 0
  l3_len := 0
  l4_offset := 0

/-- Control flow of a block of `parse_packet`: either a `return` statement was
executed (with the status returned and the record as it stands), or control
reaches the statement after the block, carrying the live variables. -/
inductive flow (α : Type) where
  | ret : pp_status → parsed_packet → flow α
  | next : α → flow α
  deriving DecidableEq, Repr

/-! ## Helpers (parse_packet.c, lines 5-28) -/

/-- The function `have` (lines 5-7): `off + need <= len` in `size_t` arithmetic. -/
def have_ (need len off : Nat) : Bool :=
  decide ((off + need) % 2 ^ 64 ≤ len)

/-- The access `buf[i]`; `none` when `i` is outside the buffer. -/
def rd (buf : List Byte) (i : Nat) : Option Byte :=
  buf.get? i

/-- The function `read_be16` (lines 8-10), applied to the pointer `buf + off`. -/
def read_be16 (buf : List Byte) (off : Nat) : Option Nat := do
  let p0 ← rd buf off
  let p1 ← rd buf (off + 1)
  pure (((p0.val <<< 8) ||| p1.val) % 65536)

/-- The function `read_be32` (lines 11-14), applied to the pointer `buf + off`. -/
def read_be32 (buf : List Byte) (off : Nat) : Option Nat := do
  let p0 ← rd buf off
  let p1 ← rd buf (off + 1)
  let p2 ← rd buf (off + 2)
  let p3 ← rd buf (off + 3)
  pure ((((p0.val <<< 24) % 2 ^ 32) ||| ((p1.val <<< 16) % 2 ^ 32)
    ||| ((p2.val <<< 8) % 2 ^ 32) ||| p3.val) % 2 ^ 32)

/-- The function `is_ipv6_ext` (lines 16-28). -/
def is_ipv6_ext (nh : Byte) : Bool :=
  match nh.val with
  | 0 => true
  | 43 => true
  | 44 => true
  | 50 => true
  | 51 => true
  | 60 => true
  | _ => false

/-- The `n` bytes that `memcpy(dst, buf + off, n)` reads, in order. -/
def read_bytes (buf : List Byte) (off : Nat) : Nat → Option (List Byte)
  | 0 => some []
  | n + 1 => do
    let b ← rd buf off
    let rest ← read_bytes buf (off + 1) n
    pure (b :: rest)

/-- The effect of `memcpy(dst, src, n)` on the array `dst`, where `src` holds
the `n` bytes read. -/
def memcpy (dst src : List Byte) : List Byte :=
  src ++ dst.drop src.length

/-! ## `parse_packet` (parse_packet.c, lines 31-167) -/

/-- The VLAN loop (lines 46-58).  `iters` is the number of iterations left
before the bound `i < 2` stops the loop; the loop is entered with `iters = 2`
and `i = 0`.  On normal exit the live variables are `(off, ethertype, out)`. -/
def vlan_loop (buf : List Byte) (len : Nat) :
    Nat → Nat → Nat → Nat → parsed_packet → Option (flow (Nat × Nat × parsed_packet))
  | 0, _, off, ethertype, out => some (flow.next (off, ethertype, out))
  | iters + 1, i, off, ethertype, out =>
    if ethertype = 0x8100 ∨ ethertype = 0x88A8 then
      if !have_ 4 len off then some (flow.ret PP_TRUNCATED out) else do
        let tci ← read_be16 buf (off + 0)
        let out := { out with vlan_id := out.vlan_id.set i (tci &&& 0x0FFF) }
        let out := { out with vlan_count := out.vlan_count + 1 }
        let ethertype ← read_be16 buf (off + 2)
        vlan_loop buf len iters (i + 1) (off + 4) ethertype out
    else
      some (flow.next (off, ethertype, out))

/-- The link-layer stage (lines 33-61): Ethernet header and VLAN tags.  On
normal exit the live variables are `(off, ethertype, out)`. -/
def link_stage (buf : List Byte) (len : Nat) :
    Option (flow (Nat × Nat × parsed_packet)) :=
  let out := zero_packet
  let off := 0
  if !have_ 14 len off then some (flow.ret PP_TRUNCATED out) else do
    let dst ← read_bytes buf (off + 0) 6
    let out := { out with dst_mac := memcpy out.dst_mac dst }
    let src ← read_bytes buf (off + 6) 6
    let out := { out with src_mac := memcpy out.src_mac src }
    let ethertype ← read_be16 buf (off + 12)
    let off := off + 14
    let out := { out with vlan_count := 0 }
    match ← vlan_loop buf len 2 0 off ethertype out with
    | flow.ret st out => pure (flow.ret st out)
    | flow.next (off, ethertype, out) =>
      let out := { out with ethertype := ethertype }
      let out := { out with l2_len := off }
      pure (flow.next (off, ethertype, out))

/-- The IPv4 branch of the network-layer stage (lines 65-87).  On normal exit
the live variables are `(off, out)`. -/
def ipv4_stage (buf : List Byte) (len off : Nat) (out : parsed_packet) :
    Option (flow (Nat × parsed_packet)) :=
  if !have_ 20 len off then some (flow.ret PP_TRUNCATED out) else do
    let vihl ← rd buf (off + 0)
    let version := (vihl.val >>> 4) % 256
    let ihl := ((vihl.val &&& 0x0F) * 4) % 256
    if version ≠ 4 ∨ ihl < 20 then pure (flow.ret PP_MALFORMED out) else
    if !have_ ihl len off then pure (flow.ret PP_TRUNCATED out) else do
      let total_len ← read_be16 buf (off + 2)
      if total_len < ihl then pure (flow.ret PP_MALFORMED out) else
      if !have_ total_len len off then pure (flow.ret PP_TRUNCATED out) else do
        let ttl ← rd buf (off + 8)
        let out := { out with ip_ttl_hop := ttl }
        let proto ← rd buf (off + 9)
        let out := { out with ip_proto := proto }
        let src ← read_bytes buf (off + 12) 4
        let out := { out with src_ip := memcpy out.src_ip src }
        let dst ← read_bytes buf (off + 16) 4
        let out := { out with dst_ip := memcpy out.dst_ip dst }
        let out := { out with l3 := L3_IPV4 }
        let out := { out with l3_len := ihl }
        let out := { out with
          ip_payload_len := (((total_len : Int) - (ihl : Int)) % 65536).toNat }
        let out := { out with l4_offset := off + ihl }
        pure (flow.next (off + ihl, out))

/-- The IPv6 branch of the network-layer stage (lines 90-114).  On normal exit
the live variables are `(off, out)`. -/
def ipv6_stage (buf : List Byte) (len off : Nat) (out : parsed_packet) :
    Option (flow (Nat × parsed_packet)) :=
  if !have_ 40 len off then some (flow.ret PP_TRUNCATED out) else do
    let b0 ← rd buf off
    let version := (b0.val >>> 4) % 256
    if version ≠ 6 then pure (flow.ret PP_MALFORMED out) else do
      let payload_len ← read_be16 buf (off + 4)
      if !have_ (40 + payload_len) len off then pure (flow.ret PP_TRUNCATED out) else do
        let next_header ← rd buf (off + 6)
        let hop ← rd buf (off + 7)
        let out := { out with ip_ttl_hop := hop }
        let src ← read_bytes buf (off + 8) 16
        let out := { out with src_ip := memcpy out.src_ip src }
        let dst ← read_bytes buf (off + 24) 16
        let out := { out with dst_ip := memcpy out.dst_ip dst }
        let out := { out with l3 := L3_IPV6 }
        let nh_off := off + 40
        let remaining := payload_len
        let out := { out with l3_len := 40 }
        let nh := next_header
        let out := { out with ip_proto := nh }
        let out := { out with ip_payload_len := remaining % 65536 }
        let out := { out with l4_offset := nh_off }
        pure (flow.next (nh_off, out))

/-- The network-layer stage (lines 64-118): dispatch on the EtherType. -/
def network_stage (buf : List Byte) (len off ethertype : Nat) (out : parsed_packet) :
    Option (flow (Nat × parsed_packet)) :=
  if ethertype = 0x0800 then ipv4_stage buf len off out
  else if ethertype = 0x86DD then ipv6_stage buf len off out
  else some (flow.ret PP_UNSUPPORTED out)

/-- The transport-layer stage (lines 121-166). -/
def transport_stage (buf : List Byte) (len off : Nat) (out : parsed_packet) :
    Option (pp_status × parsed_packet) :=
  let out := { out with l4 := L4_NONE }
  if out.ip_payload_len = 0 then some (PP_OK, out) else
  match out.ip_proto.val with
  | 6 =>
    if !have_ 20 len off then some (PP_TRUNCATED, out) else do
      let sp ← read_be16 buf (off + 0)
      let out := { out with src_port := sp }
      let dp ← read_be16 buf (off + 2)
      let out := { out with dst_port := dp }
      let b12 ← rd buf (off + 12)
      let data_offset := ((b12.val >>> 4) * 4) % 256
      if data_offset < 20 then pure (PP_MALFORMED, out) else
      if !have_ data_offset len off then pure (PP_TRUNCATED, out) else
      if data_offset > out.ip_payload_len then pure (PP_MALFORMED, out) else
      pure (PP_OK, { out with l4 := L4_TCP })
  | 17 =>
    if !have_ 8 len off then some (PP_TRUNCATED, out) else do
      let sp ← read_be16 buf (off + 0)
      let out := { out with src_port := sp }
      let dp ← read_be16 buf (off + 2)
      let out := { out with dst_port := dp }
      pure (PP_OK, { out with l4 := L4_UDP })
  | 1 =>
    if !have_ 4 len off then some (PP_TRUNCATED, out) else do
      let t ← rd buf (off + 0)
      let out := { out with icmp_type := t }
      let c ← rd buf (off + 1)
      let out := { out with icmp_code := c }
      pure (PP_OK, { out with l4 := L4_ICMP })
  | 58 =>
    if !have_ 4 len off then some (PP_TRUNCATED, out) else do
      let t ← rd buf (off + 0)
      let out := { out with icmp_type := t }
      let c ← rd buf (off + 1)
      let out := { out with icmp_code := c }
      pure (PP_OK, { out with l4 := L4_ICMPV6 })
  | _ => some (PP_OK, out)

/-- The function `parse_packet` (lines 31-167) on non-null `buf` and `out`:
the status returned and the final content of `*out`, or `none` when a byte
outside the buffer would have been read. -/
def parse_packet (buf : List Byte) (len : Nat) : Option (pp_status × parsed_packet) := do
  match ← link_stage buf len with
  | flow.ret st out => pure (st, out)
  | flow.next (off, ethertype, out) =>
    match ← network_stage buf len off ethertype out with
    | flow.ret st out => pure (st, out)
    | flow.next (off, out) => transport_stage buf len off out

/-- The canonical fixture of `main.c` (lines 25-50). -/
def pkt : List Byte :=
  [0x00,0x11,0x22,0x33,0x44,0x55,
   0x66,0x77,0x88,0x99,0xaa,0xbb,
   0x08,0x00,
   0x45,0x00,
   0x00,0x20,
   0x00,0x00,
   0x00,0x00,
   0x40,
   0x11,
   0x00,0x00,
   0xC0,0x00,0x02,0x01,
   0xC6,0x33,0x64,0x02,
   0x30,0x39,
   0x00,0x50,
   0x00,0x0C,
   0x00,0x00,
   0x41,0x42,0x43,0x44]

/-- An ARP frame without VLAN tag: EtherType 0x0806. -/
def arp_pkt : List Byte :=
  [0xff,0xff,0xff,0xff,0xff,0xff,
   0x66,0x77,0x88,0x99,0xaa,0xbb,
   0x08,0x06,
   0x00,0x01,0x08,0x00]

/-- A frame with three stacked 802.1Q tags (VLAN 1, 2, 3) and no more byte. -/
def vlan3_pkt : List Byte :=
  [0x00,0x11,0x22,0x33,0x44,0x55,
   0x66,0x77,0x88,0x99,0xaa,0xbb,
   0x81,0x00, 0x00,0x01,
   0x81,0x00, 0x00,0x02,
   0x81,0x00]

/-- Two stacked tags (802.1ad with TCI 0x2064, 802.1Q with TCI 0xE0C8) in
front of the IPv4 datagram of the fixture `pkt`. -/
def vlan2_pkt : List Byte :=
  pkt.take 12 ++ [0x88,0xA8, 0x20,0x64, 0x81,0x00, 0xE0,0xC8] ++ pkt.drop 12

/-- The fixture `pkt` with version nibble 5 in the first byte of the IP header. -/
def pkt_bad_version : List Byte :=
  pkt.set 14 0x55

/-- The fixture `pkt` with IHL nibble 4, that is a header length of 16 bytes. -/
def pkt_bad_ihl : List Byte :=
  pkt.set 14 0x44

/-- The fixture `pkt` with Total Length 16, below the header length 20. -/
def pkt_small_total : List Byte :=
  pkt.set 17 0x10

/-- The fixture `pkt` with Total Length 33, one more than the 32 bytes that
follow the Ethernet header. -/
def pkt_big_total : List Byte :=
  pkt.set 17 0x21

/-- An Ethernet/IPv6/UDP frame: 14 + 40 + 8 bytes, Payload Length 8. -/
def pkt6 : List Byte :=
  [0x00,0x11,0x22,0x33,0x44,0x55,
   0x66,0x77,0x88,0x99,0xaa,0xbb,
   0x86,0xDD,
   0x60,0x00,0x00,0x00,
   0x00,0x08,
   0x11,
   0x40,
   0x20,0x01,0x0d,0xb8,0x00,0x00,0x00,0x00,0x00,0x00,0x00,0x00,0x00,0x00,0x00,0x01,
   0x20,0x01,0x0d,0xb8,0x00,0x00,0x00,0x00,0x00,0x00,0x00,0x00,0x00,0x00,0x00,0x02,
   0x30,0x39,
   0x00,0x50,
   0x00,0x08,
   0x00,0x00]

/-- The frame `pkt6` with version nibble 4 in the first byte of the IP header. -/
def pkt6_bad_version : List Byte :=
  pkt6.set 14 0x40

/-- The frame `pkt6` with Payload Length 9, one more than the 8 bytes that
follow the IPv6 header. -/
def pkt6_big_payload : List Byte :=
  pkt6.set 19 0x09

/-- An Ethernet/IPv4/TCP frame: 14 + 20 + 20 bytes, Total Length 40, data
offset 5 words, ports 443 and 51000. -/
def pkt_tcp : List Byte :=
  [0x00,0x11,0x22,0x33,0x44,0x55,
   0x66,0x77,0x88,0x99,0xaa,0xbb,
   0x08,0x00,
   0x45,0x00,
   0x00,0x28,
   0x00,0x00,
   0x00,0x00,
   0x40,
   0x06,
   0x00,0x00,
   0xC0,0x00,0x02,0x01,
   0xC6,0x33,0x64,0x02,
   0x01,0xBB,
   0xC7,0x38,
   0x00,0x00,0x00,0x01,
   0x00,0x00,0x00,0x00,
   0x50,0x02,
   0xFF,0xFF,
   0x00,0x00,
   0x00,0x00]

/-- The frame `pkt_tcp` with data offset 4 words, that is 16 bytes. -/
def pkt_tcp_small_offset : List Byte :=
  pkt_tcp.set 46 0x40

/-- The frame `pkt_tcp` with Total Length 32 (12 bytes of payload declared)
and the 20 bytes of the TCP header still in the buffer. -/
def pkt_tcp_small_payload : List Byte :=
  pkt_tcp.set 17 0x20

/-- The fixture `pkt` with protocol number 47 (GRE). -/
def pkt_gre : List Byte :=
  pkt.set 23 47

/-- The Ethernet and IPv4 headers of `pkt_tcp` alone, with Total Length 20:
protocol 6 and no byte after the IP header. -/
def pkt_empty_payload : List Byte :=
  (pkt_tcp.set 17 0x14).take 34

/-- The Ethernet and IPv6 headers of `pkt6` alone, with Payload Length 0 and
Next Header 58. -/
def pkt6_empty_payload : List Byte :=
  ((pkt6.set 19 0x00).set 20 58).take 54

/-- The frame `pkt6` with Next Header 0 (Hop-by-Hop Options). -/
def pkt6_hop_by_hop : List Byte :=
  pkt6.set 20 0

/-- The fixture `pkt` with Total Length 21: one byte of IP payload declared,
the other bytes of the buffer being trailing padding. -/
def pkt_udp_padding : List Byte :=
  pkt.set 17 0x15

/-- The fixture `pkt` with Total Length 21 and protocol number 1 (ICMP). -/
def pkt_icmp_padding : List Byte :=
  (pkt.set 17 0x15).set 23 1

/-! ## Vocabulary of the statements

Bytes and big-endian fields of the buffer, read by position.  A position
outside the buffer yields `0`; the statements below bound the positions they
use by the length of the buffer, explicitly or through a `PP_OK` result. -/

/-- The byte at position `i` of the buffer. -/
def byteAt (buf : List Byte) (i : Nat) : Byte :=
  buf.getD i 0

/-- The big-endian 16-bit value held by the bytes at positions `i` and `i + 1`. -/
def be16At (buf : List Byte) (i : Nat) : Nat :=
  256 * (byteAt buf i).val + (byteAt buf (i + 1)).val

/-- The `n` bytes at positions `i .. i + n - 1` of the buffer. -/
def bytesAt (buf : List Byte) (i n : Nat) : List Byte :=
  (buf.drop i).take n

/-- The two tag values that the VLAN loop strips: 802.1Q and 802.1ad. -/
def is_vlan_tag (e : Nat) : Bool :=
  e = 0x8100 || e = 0x88A8

/-- The link layer read by position: the cursor and the EtherType left after
stripping at most two leading VLAN tags, each stripped tag having its four
bytes inside the buffer; `none` when the buffer ends before that. -/
def link_done (buf : List Byte) : Option (Nat × Nat) :=
  if buf.length < 14 then none
  else if !is_vlan_tag (be16At buf 12) then some (14, be16At buf 12)
  else if buf.length < 18 then none
  else if !is_vlan_tag (be16At buf 16) then some (18, be16At buf 16)
  else if buf.length < 22 then none
  else some (22, be16At buf 20)

/-- The record at the end of the link-layer stage, read by position, when the
stage completes at cursor `off` with EtherType `e`. -/
def l2_record (buf : List Byte) (off e : Nat) : parsed_packet :=
  { zero_packet with
    dst_mac := bytesAt buf 0 6
    src_mac := bytesAt buf 6 6
    vlan_id :=
      if off = 14 then [0, 0]
      else if off = 18 then [be16At buf 14 % 4096, 0]
      else [be16At buf 14 % 4096, be16At buf 18 % 4096]
    vlan_count := ((off - 14) / 4 : Nat)
    ethertype := e
    l2_len := off }

/-- The high nibble of the byte at position `off`: the IP version field. -/
def ip_version (buf : List Byte) (off : Nat) : Nat :=
  (byteAt buf off).val / 16

/-- Four times the low nibble of the byte at position `off`: the IPv4 header
length in bytes. -/
def ipv4_hlen (buf : List Byte) (off : Nat) : Nat :=
  4 * ((byteAt buf off).val % 16)

/-- The record at the end of the IPv4 branch, read by position, for a header
that starts at cursor `off` and a record `out` left by the link-layer stage. -/
def ipv4_record (buf : List Byte) (off : Nat) (out : parsed_packet) : parsed_packet :=
  { out with
    ip_ttl_hop := byteAt buf (off + 8)
    ip_proto := byteAt buf (off + 9)
    src_ip := memcpy out.src_ip (bytesAt buf (off + 12) 4)
    dst_ip := memcpy out.dst_ip (bytesAt buf (off + 16) 4)
    l3 := L3_IPV4
    l3_len := ipv4_hlen buf off
    ip_payload_len := be16At buf (off + 2) - ipv4_hlen buf off
    l4_offset := off + ipv4_hlen buf off }

/-- The record at the end of the IPv6 branch, read by position, for a header
that starts at cursor `off` and a record `out` left by the link-layer stage. -/
def ipv6_record (buf : List Byte) (off : Nat) (out : parsed_packet) : parsed_packet :=
  { out with
    ip_ttl_hop := byteAt buf (off + 7)
    ip_proto := byteAt buf (off + 6)
    src_ip := memcpy out.src_ip (bytesAt buf (off + 8) 16)
    dst_ip := memcpy out.dst_ip (bytesAt buf (off + 24) 16)
    l3 := L3_IPV6
    l3_len := 40
    ip_payload_len := be16At buf (off + 4)
    l4_offset := off + 40 }

/-- Four times the high nibble of the byte at position `off + 12`: the TCP
data offset in bytes, for a TCP header that starts at `off`. -/
def tcp_data_offset (buf : List Byte) (off : Nat) : Nat :=
  4 * ((byteAt buf (off + 12)).val / 16)

/-- The rest of `parse_packet` once the network-layer stage has run. -/
def after_network (buf : List Byte) (len : Nat) :
    flow (Nat × parsed_packet) → Option (pp_status × parsed_packet)
  | flow.ret st out => some (st, out)
  | flow.next (off, out) => transport_stage buf len off out

/-- The link and network layers read by position: the transport cursor and the
record at the end of the network-layer stage, when the link layer completes
with EtherType 0x0800 and a consistent IPv4 header inside the buffer, or with
EtherType 0x86DD and a consistent IPv6 header inside the buffer; `none`
otherwise. -/
def network_done (buf : List Byte) : Option (Nat × parsed_packet) :=
  match link_done buf with
  | none => none
  | some (off, e) =>
    if e = 0x0800 then
      if off + 20 ≤ buf.length ∧ ip_version buf off = 4 ∧ 20 ≤ ipv4_hlen buf off ∧
          ipv4_hlen buf off ≤ be16At buf (off + 2) ∧
          off + be16At buf (off + 2) ≤ buf.length then
        some (off + ipv4_hlen buf off, ipv4_record buf off (l2_record buf off e))
      else none
    else if e = 0x86DD then
      if off + 40 ≤ buf.length ∧ ip_version buf off = 6 ∧
          off + (40 + be16At buf (off + 4)) ≤ buf.length then
        some (off + 40, ipv6_record buf off (l2_record buf off e))
      else none
    else none

/-- The values of Next Header that `is_ipv6_ext` lists as extension headers. -/
def ipv6_ext_values : List Nat :=
  [0, 43, 44, 50, 51, 60]

/-! ## Reads inside the buffer -/

theorem rd_eq {buf : List Byte} {i : Nat} (h : i < buf.length) :
    rd buf i = some (byteAt buf i) := by
  simp [rd, byteAt, List.getD_eq_getElem?_getD, List.getElem?_eq_getElem h]

theorem be16_bits (a b : Byte) :
    ((a.val <<< 8) ||| b.val) % 65536 = 256 * a.val + b.val := by
  have ha := a.isLt
  have hb := b.isLt
  have h := Nat.mul_add_lt_is_or (i := 8) (b := b.val) (by simp) a.val
  rw [Nat.shiftLeft_eq, Nat.mul_comm a.val (2 ^ 8), ← h]
  omega

theorem read_be16_eq {buf : List Byte} {off : Nat} (h : off + 2 ≤ buf.length) :
    read_be16 buf off = some (be16At buf off) := by
  have h0 : rd buf off = some (byteAt buf off) := rd_eq (by omega)
  have h1 : rd buf (off + 1) = some (byteAt buf (off + 1)) := rd_eq (by omega)
  simp [read_be16, be16At, h0, h1, be16_bits]

theorem read_bytes_eq (buf : List Byte) (n : Nat) :
    ∀ off : Nat, off + n ≤ buf.length → read_bytes buf off n = some (bytesAt buf off n) := by
  induction n with
  | zero => intro off _; simp [read_bytes, bytesAt]
  | succ n ih =>
    intro off h
    have h0 : off < buf.length := by omega
    have hd : buf.drop off = byteAt buf off :: buf.drop (off + 1) := by
      rw [List.drop_eq_getElem_cons h0]
      simp [byteAt, List.getD_eq_getElem?_getD, List.getElem?_eq_getElem h0]
    have ih2 := ih (off + 1) (by omega)
    simp [read_bytes, rd_eq h0, ih2, bytesAt, hd]

theorem bytesAt_length {buf : List Byte} {off n : Nat} (h : off + n ≤ buf.length) :
    (bytesAt buf off n).length = n := by
  simp [bytesAt]; omega

theorem be16At_lt (buf : List Byte) (i : Nat) : be16At buf i < 65536 := by
  have h0 := (byteAt buf i).isLt
  have h1 := (byteAt buf (i + 1)).isLt
  unfold be16At
  omega

theorem have_eq {need len off : Nat} (h : off + need < 2 ^ 64) :
    have_ need len off = decide (off + need ≤ len) := by
  unfold have_
  rw [Nat.mod_eq_of_lt h]

theorem have_true {need len off : Nat} (h : off + need ≤ len) (hb : off + need < 2 ^ 64) :
    have_ need len off = true := by
  rw [have_eq hb]; exact decide_eq_true h

theorem have_false {need len off : Nat} (h : len < off + need) (hb : off + need < 2 ^ 64) :
    have_ need len off = false := by
  rw [have_eq hb]; exact decide_eq_false (by omega)

theorem memcpy_full {dst src : List Byte} (h : src.length = dst.length) :
    memcpy dst src = src := by
  simp [memcpy, h]

theorem is_vlan_tag_iff (e : Nat) : is_vlan_tag e = true ↔ (e = 0x8100 ∨ e = 0x88A8) := by
  simp [is_vlan_tag]

/-! ## The link-layer stage, case by case -/

theorem vlan_loop_stop (buf : List Byte) (len iters i off e : Nat) (out : parsed_packet)
    (he : is_vlan_tag e = false) :
    vlan_loop buf len (iters + 1) i off e out = some (flow.next (off, e, out)) := by
  have h : ¬ (e = 0x8100 ∨ e = 0x88A8) := by
    rw [← is_vlan_tag_iff, he]; simp
  simp only [vlan_loop, if_neg h]

theorem vlan_loop_trunc (buf : List Byte) (len iters i off e : Nat) (out : parsed_packet)
    (he : is_vlan_tag e = true) (hlen : len < off + 4) (hb : off + 4 < 2 ^ 64) :
    vlan_loop buf len (iters + 1) i off e out = some (flow.ret PP_TRUNCATED out) := by
  have h : e = 0x8100 ∨ e = 0x88A8 := (is_vlan_tag_iff e).1 he
  simp [vlan_loop, if_pos h, have_false hlen hb]

theorem vlan_loop_step (buf : List Byte) (iters i off e : Nat) (out : parsed_packet)
    (he : is_vlan_tag e = true) (hlen : off + 4 ≤ buf.length) (hb : off + 4 < 2 ^ 64) :
    vlan_loop buf buf.length (iters + 1) i off e out =
      vlan_loop buf buf.length iters (i + 1) (off + 4) (be16At buf (off + 2))
        { out with
          vlan_id := out.vlan_id.set i (be16At buf off % 4096)
          vlan_count := out.vlan_count + 1 } := by
  have h : e = 0x8100 ∨ e = 0x88A8 := (is_vlan_tag_iff e).1 he
  have h0 : read_be16 buf off = some (be16At buf off) := read_be16_eq (by omega)
  have h2 : read_be16 buf (off + 2) = some (be16At buf (off + 2)) := read_be16_eq (by omega)
  have hm : be16At buf off &&& 0x0FFF = be16At buf off % 4096 :=
    Nat.and_pow_two_sub_one_eq_mod _ 12
  simp [vlan_loop, if_pos h, have_true hlen hb, h0, h2, hm]

theorem link_stage_short (buf : List Byte) (h : buf.length < 14) :
    link_stage buf buf.length = some (flow.ret PP_TRUNCATED zero_packet) := by
  simp [link_stage, have_false (show buf.length < 0 + 14 by omega) (by norm_num)]

/-- The state in which the VLAN loop is entered (lines 39-43). -/
theorem link_stage_enter (buf : List Byte) (h : 14 ≤ buf.length) :
    link_stage buf buf.length =
      (vlan_loop buf buf.length 2 0 14 (be16At buf 12)
        { zero_packet with dst_mac := bytesAt buf 0 6, src_mac := bytesAt buf 6 6 }).bind
        (fun r => match r with
          | flow.ret st out => some (flow.ret st out)
          | flow.next (off, ethertype, out) =>
            some (flow.next (off, ethertype,
              { out with ethertype := ethertype, l2_len := off }))) := by
  have hd : read_bytes buf 0 6 = some (bytesAt buf 0 6) := read_bytes_eq buf 6 0 (by omega)
  have hs : read_bytes buf 6 6 = some (bytesAt buf 6 6) := read_bytes_eq buf 6 6 (by omega)
  have he : read_be16 buf 12 = some (be16At buf 12) := read_be16_eq (by omega)
  have hmd : memcpy zero_packet.dst_mac (bytesAt buf 0 6) = bytesAt buf 0 6 :=
    memcpy_full (by rw [bytesAt_length (by omega)]; rfl)
  have hms : memcpy zero_packet.src_mac (bytesAt buf 6 6) = bytesAt buf 6 6 :=
    memcpy_full (by rw [bytesAt_length (by omega)]; rfl)
  simp [link_stage, have_true (show 0 + 14 ≤ buf.length by omega) (by norm_num), hd, hs, he,
    hmd, hms]
  rfl

theorem vlan_loop_zero (buf : List Byte) (len i off e : Nat) (out : parsed_packet) :
    vlan_loop buf len 0 i off e out = some (flow.next (off, e, out)) := rfl

/-- When the link layer, read by position, completes, so does the link-layer
stage of the code, at the same cursor, with the same EtherType and with the
record `l2_record`. -/
theorem link_stage_of_done (buf : List Byte) (off e : Nat)
    (h : link_done buf = some (off, e)) :
    link_stage buf buf.length = some (flow.next (off, e, l2_record buf off e)) := by
  unfold link_done at h
  split_ifs at h with h14 ht0 h18 ht1 h22
  · -- no tag
    simp only [Option.some.injEq, Prod.mk.injEq] at h
    obtain ⟨rfl, rfl⟩ := h
    rw [link_stage_enter buf (by omega), vlan_loop_stop _ _ _ _ _ _ _ (by simpa using ht0)]
    simp [l2_record, zero_packet]
  · -- one tag
    simp only [Option.some.injEq, Prod.mk.injEq] at h
    obtain ⟨rfl, rfl⟩ := h
    rw [link_stage_enter buf (by omega),
      vlan_loop_step _ _ _ _ _ _ (by simpa using ht0) (by omega) (by norm_num),
      vlan_loop_stop _ _ _ _ _ _ _ (by simpa using ht1)]
    simp [l2_record, zero_packet]
  · -- two tags
    simp only [Option.some.injEq, Prod.mk.injEq] at h
    obtain ⟨rfl, rfl⟩ := h
    rw [link_stage_enter buf (by omega),
      vlan_loop_step _ _ _ _ _ _ (by simpa using ht0) (by omega) (by norm_num),
      vlan_loop_step _ _ _ _ _ _ (by simpa using ht1) (by omega) (by norm_num),
      vlan_loop_zero]
    simp [l2_record, zero_packet]

/-- When the buffer ends inside the link layer, the link-layer stage returns
`PP_TRUNCATED`. -/
theorem link_stage_of_not_done (buf : List Byte) (h : link_done buf = none) :
    ∃ out, link_stage buf buf.length = some (flow.ret PP_TRUNCATED out) := by
  unfold link_done at h
  split_ifs at h with h14 ht0 h18 ht1 h22
  · exact ⟨_, link_stage_short buf h14⟩
  · rw [link_stage_enter buf (by omega),
      vlan_loop_trunc _ _ _ _ _ _ _ (by simpa using ht0) (by omega) (by norm_num)]
    exact ⟨_, rfl⟩
  · rw [link_stage_enter buf (by omega),
      vlan_loop_step _ _ _ _ _ _ (by simpa using ht0) (by omega) (by norm_num),
      vlan_loop_trunc _ _ _ _ _ _ _ (by simpa using ht1) (by omega) (by norm_num)]
    exact ⟨_, rfl⟩

/-- The link-layer stage of the code completes at cursor `off` with EtherType
`e` exactly when the link layer, read by position, does. -/
theorem link_stage_next_iff (buf : List Byte) (off e : Nat) (out : parsed_packet) :
    link_stage buf buf.length = some (flow.next (off, e, out)) ↔
      link_done buf = some (off, e) ∧ out = l2_record buf off e := by
  constructor
  · intro h
    cases hd : link_done buf with
    | none =>
      obtain ⟨o, ho⟩ := link_stage_of_not_done buf hd
      rw [ho] at h
      cases h
    | some p =>
      obtain ⟨off1, e1⟩ := p
      rw [link_stage_of_done buf off1 e1 hd] at h
      simp only [Option.some.injEq, flow.next.injEq, Prod.mk.injEq] at h
      obtain ⟨rfl, rfl, rfl⟩ := h
      exact ⟨rfl, rfl⟩
  · rintro ⟨hd, rfl⟩
    exact link_stage_of_done buf off e hd

theorem link_done_bounds {buf : List Byte} {off e : Nat} (h : link_done buf = some (off, e)) :
    14 ≤ off ∧ off ≤ 22 ∧ off ≤ buf.length ∧ e < 65536 := by
  unfold link_done at h
  split_ifs at h <;> simp only [Option.some.injEq, Prod.mk.injEq] at h <;>
    obtain ⟨rfl, rfl⟩ := h <;> refine ⟨by omega, by omega, by omega, be16At_lt _ _⟩

/-! ## The network-layer stage, case by case -/

theorem version_bits (v : Byte) : (v.val >>> 4) % 256 = v.val / 16 := by
  have hv := v.isLt
  rw [Nat.shiftRight_eq_div_pow]
  omega

theorem ihl_bits (v : Byte) : ((v.val &&& 0x0F) * 4) % 256 = 4 * (v.val % 16) := by
  have hv := v.isLt
  have h : v.val &&& 0x0F = v.val % 16 := Nat.and_pow_two_sub_one_eq_mod _ 4
  rw [h]
  omega

theorem ipv4_hlen_le (buf : List Byte) (off : Nat) : ipv4_hlen buf off ≤ 60 := by
  unfold ipv4_hlen
  omega

theorem ipv4_stage_short (buf : List Byte) (off : Nat) (out : parsed_packet)
    (h : buf.length < off + 20) (hb : off < 2 ^ 32) :
    ipv4_stage buf buf.length off out = some (flow.ret PP_TRUNCATED out) := by
  simp [ipv4_stage, have_false h (by omega)]

/-- The IPv4 branch on a buffer that holds the 20 fixed bytes of the header. -/
theorem ipv4_stage_eq (buf : List Byte) (off : Nat) (out : parsed_packet)
    (h20 : off + 20 ≤ buf.length) (hb : off < 2 ^ 32) :
    ipv4_stage buf buf.length off out = some (
      if ip_version buf off ≠ 4 ∨ ipv4_hlen buf off < 20 then flow.ret PP_MALFORMED out
      else if buf.length < off + ipv4_hlen buf off then flow.ret PP_TRUNCATED out
      else if be16At buf (off + 2) < ipv4_hlen buf off then flow.ret PP_MALFORMED out
      else if buf.length < off + be16At buf (off + 2) then flow.ret PP_TRUNCATED out
      else flow.next (off + ipv4_hlen buf off, ipv4_record buf off out)) := by
  have hl := ipv4_hlen_le buf off
  have ht := be16At_lt buf (off + 2)
  have r0 : rd buf off = some (byteAt buf off) := rd_eq (by omega)
  have r2 : read_be16 buf (off + 2) = some (be16At buf (off + 2)) := read_be16_eq (by omega)
  have r8 : rd buf (off + 8) = some (byteAt buf (off + 8)) := rd_eq (by omega)
  have r9 : rd buf (off + 9) = some (byteAt buf (off + 9)) := rd_eq (by omega)
  have r12 : read_bytes buf (off + 12) 4 = some (bytesAt buf (off + 12) 4) :=
    read_bytes_eq buf 4 (off + 12) (by omega)
  have r16 : read_bytes buf (off + 16) 4 = some (bytesAt buf (off + 16) 4) :=
    read_bytes_eq buf 4 (off + 16) (by omega)
  have hv : ((byteAt buf off).val >>> 4) % 256 = ip_version buf off := version_bits _
  have hi : (((byteAt buf off).val &&& 0x0F) * 4) % 256 = ipv4_hlen buf off := ihl_bits _
  simp only [ipv4_stage, have_true h20 (by omega : off + 20 < 2 ^ 64), Bool.not_true,
    Bool.false_eq_true, if_false, Nat.add_zero, r0, Option.bind_eq_bind, Option.some_bind,
    hv, hi, r2, r8, r9, r12, r16, Option.pure_def]
  by_cases c1 : ip_version buf off ≠ 4 ∨ ipv4_hlen buf off < 20
  · simp only [if_pos c1]
  · simp only [if_neg c1]
    by_cases c2 : buf.length < off + ipv4_hlen buf off
    · simp [if_pos c2, have_false c2 (by omega : off + ipv4_hlen buf off < 2 ^ 64)]
    · simp only [if_neg c2,
        have_true (Nat.le_of_not_lt c2) (by omega : off + ipv4_hlen buf off < 2 ^ 64),
        Bool.not_true, Bool.false_eq_true, if_false]
      by_cases c3 : be16At buf (off + 2) < ipv4_hlen buf off
      · simp only [if_pos c3]
      · simp only [if_neg c3]
        by_cases c4 : buf.length < off + be16At buf (off + 2)
        · simp [if_pos c4, have_false c4 (by omega : off + be16At buf (off + 2) < 2 ^ 64)]
        · have hp : (((be16At buf (off + 2) : Int) - (ipv4_hlen buf off : Int)) % 65536).toNat
              = be16At buf (off + 2) - ipv4_hlen buf off := by omega
          simp only [if_neg c4,
            have_true (Nat.le_of_not_lt c4) (by omega : off + be16At buf (off + 2) < 2 ^ 64),
            Bool.not_true, Bool.false_eq_true, if_false, hp, ipv4_record]

theorem ipv6_stage_short (buf : List Byte) (off : Nat) (out : parsed_packet)
    (h : buf.length < off + 40) (hb : off < 2 ^ 32) :
    ipv6_stage buf buf.length off out = some (flow.ret PP_TRUNCATED out) := by
  simp [ipv6_stage, have_false h (by omega)]

/-- The IPv6 branch on a buffer that holds the 40 bytes of the fixed header. -/
theorem ipv6_stage_eq (buf : List Byte) (off : Nat) (out : parsed_packet)
    (h40 : off + 40 ≤ buf.length) (hb : off < 2 ^ 32) :
    ipv6_stage buf buf.length off out = some (
      if ip_version buf off ≠ 6 then flow.ret PP_MALFORMED out
      else if buf.length < off + (40 + be16At buf (off + 4)) then flow.ret PP_TRUNCATED out
      else flow.next (off + 40, ipv6_record buf off out)) := by
  have ht := be16At_lt buf (off + 4)
  have r0 : rd buf off = some (byteAt buf off) := rd_eq (by omega)
  have r4 : read_be16 buf (off + 4) = some (be16At buf (off + 4)) := read_be16_eq (by omega)
  have r6 : rd buf (off + 6) = some (byteAt buf (off + 6)) := rd_eq (by omega)
  have r7 : rd buf (off + 7) = some (byteAt buf (off + 7)) := rd_eq (by omega)
  have r8 : read_bytes buf (off + 8) 16 = some (bytesAt buf (off + 8) 16) :=
    read_bytes_eq buf 16 (off + 8) (by omega)
  have r24 : read_bytes buf (off + 24) 16 = some (bytesAt buf (off + 24) 16) :=
    read_bytes_eq buf 16 (off + 24) (by omega)
  have hv : ((byteAt buf off).val >>> 4) % 256 = ip_version buf off := version_bits _
  have hm : be16At buf (off + 4) % 65536 = be16At buf (off + 4) := Nat.mod_eq_of_lt ht
  simp only [ipv6_stage, have_true h40 (by omega : off + 40 < 2 ^ 64), Bool.not_true,
    Bool.false_eq_true, if_false, r0, Option.bind_eq_bind, Option.some_bind,
    hv, r4, r6, r7, r8, r24, Option.pure_def, hm]
  by_cases c1 : ip_version buf off ≠ 6
  · simp only [if_pos c1]
  · simp only [if_neg c1]
    by_cases c2 : buf.length < off + (40 + be16At buf (off + 4))
    · simp [if_pos c2, have_false c2 (by omega : off + (40 + be16At buf (off + 4)) < 2 ^ 64)]
    · simp only [if_neg c2, have_true (Nat.le_of_not_lt c2)
          (by omega : off + (40 + be16At buf (off + 4)) < 2 ^ 64),
        Bool.not_true, Bool.false_eq_true, if_false, ipv6_record]

/-! ## The transport-layer stage, case by case -/

theorem data_offset_bits (v : Byte) : ((v.val >>> 4) * 4) % 256 = 4 * (v.val / 16) := by
  have hv := v.isLt
  rw [Nat.shiftRight_eq_div_pow]
  omega

theorem tcp_data_offset_le (buf : List Byte) (off : Nat) : tcp_data_offset buf off ≤ 60 := by
  have hv := (byteAt buf (off + 12)).isLt
  unfold tcp_data_offset
  omega

/-- The transport-layer stage, read by position. -/
theorem transport_stage_eq (buf : List Byte) (off : Nat) (out : parsed_packet)
    (hb : off < 2 ^ 32) :
    transport_stage buf buf.length off out = some (
      if out.ip_payload_len = 0 then (PP_OK, { out with l4 := L4_NONE })
      else if out.ip_proto.val = 6 then
        if buf.length < off + 20 then (PP_TRUNCATED, { out with l4 := L4_NONE })
        else if tcp_data_offset buf off < 20 then
          (PP_MALFORMED, { out with
            l4 := L4_NONE, src_port := be16At buf off, dst_port := be16At buf (off + 2) })
        else if buf.length < off + tcp_data_offset buf off then
          (PP_TRUNCATED, { out with
            l4 := L4_NONE, src_port := be16At buf off, dst_port := be16At buf (off + 2) })
        else if tcp_data_offset buf off > out.ip_payload_len then
          (PP_MALFORMED, { out with
            l4 := L4_NONE, src_port := be16At buf off, dst_port := be16At buf (off + 2) })
        else
          (PP_OK, { out with
            l4 := L4_TCP, src_port := be16At buf off, dst_port := be16At buf (off + 2) })
      else if out.ip_proto.val = 17 then
        if buf.length < off + 8 then (PP_TRUNCATED, { out with l4 := L4_NONE })
        else
          (PP_OK, { out with
            l4 := L4_UDP, src_port := be16At buf off, dst_port := be16At buf (off + 2) })
      else if out.ip_proto.val = 1 then
        if buf.length < off + 4 then (PP_TRUNCATED, { out with l4 := L4_NONE })
        else
          (PP_OK, { out with
            l4 := L4_ICMP, icmp_type := byteAt buf off, icmp_code := byteAt buf (off + 1) })
      else if out.ip_proto.val = 58 then
        if buf.length < off + 4 then (PP_TRUNCATED, { out with l4 := L4_NONE })
        else
          (PP_OK, { out with
            l4 := L4_ICMPV6, icmp_type := byteAt buf off, icmp_code := byteAt buf (off + 1) })
      else (PP_OK, { out with l4 := L4_NONE })) := by
  have hd := tcp_data_offset_le buf off
  unfold transport_stage
  by_cases c0 : out.ip_payload_len = 0
  · simp only [if_pos c0]
  · simp only [if_neg c0]
    split
    next h6 =>
      simp only [if_pos h6]
      by_cases c20 : buf.length < off + 20
      · simp [if_pos c20, have_false c20 (by omega : off + 20 < 2 ^ 64)]
      · have r0 : read_be16 buf off = some (be16At buf off) := read_be16_eq (by omega)
        have r2 : read_be16 buf (off + 2) = some (be16At buf (off + 2)) :=
          read_be16_eq (by omega)
        have r12 : rd buf (off + 12) = some (byteAt buf (off + 12)) := rd_eq (by omega)
        have hv : (((byteAt buf (off + 12)).val >>> 4) * 4) % 256 = tcp_data_offset buf off :=
          data_offset_bits _
        simp only [if_neg c20, have_true (Nat.le_of_not_lt c20) (by omega : off + 20 < 2 ^ 64),
          Bool.not_true, Bool.false_eq_true, if_false, Nat.add_zero, r0, r2, r12,
          Option.bind_eq_bind, Option.some_bind, Option.pure_def, hv]
        by_cases d1 : tcp_data_offset buf off < 20
        · simp only [if_pos d1]
        · simp only [if_neg d1]
          by_cases d2 : buf.length < off + tcp_data_offset buf off
          · simp [if_pos d2, have_false d2 (by omega : off + tcp_data_offset buf off < 2 ^ 64)]
          · simp only [if_neg d2, have_true (Nat.le_of_not_lt d2)
                (by omega : off + tcp_data_offset buf off < 2 ^ 64),
              Bool.not_true, Bool.false_eq_true, if_false]
            by_cases d3 : tcp_data_offset buf off > out.ip_payload_len
            · simp only [if_pos d3]
            · simp only [if_neg d3]
    next h17 =>
      have n6 : ¬ out.ip_proto.val = 6 := by omega
      simp only [if_neg n6, if_pos h17]
      by_cases c8 : buf.length < off + 8
      · simp [if_pos c8, have_false c8 (by omega : off + 8 < 2 ^ 64)]
      · have r0 : read_be16 buf off = some (be16At buf off) := read_be16_eq (by omega)
        have r2 : read_be16 buf (off + 2) = some (be16At buf (off + 2)) :=
          read_be16_eq (by omega)
        simp only [if_neg c8, have_true (Nat.le_of_not_lt c8) (by omega : off + 8 < 2 ^ 64),
          Bool.not_true, Bool.false_eq_true, if_false, Nat.add_zero, r0, r2,
          Option.bind_eq_bind, Option.some_bind, Option.pure_def]
    next h1 =>
      have n6 : ¬ out.ip_proto.val = 6 := by omega
      have n17 : ¬ out.ip_proto.val = 17 := by omega
      simp only [if_neg n6, if_neg n17, if_pos h1]
      by_cases c4 : buf.length < off + 4
      · simp [if_pos c4, have_false c4 (by omega : off + 4 < 2 ^ 64)]
      · have r0 : rd buf off = some (byteAt buf off) := rd_eq (by omega)
        have r1 : rd buf (off + 1) = some (byteAt buf (off + 1)) := rd_eq (by omega)
        simp only [if_neg c4, have_true (Nat.le_of_not_lt c4) (by omega : off + 4 < 2 ^ 64),
          Bool.not_true, Bool.false_eq_true, if_false, Nat.add_zero, r0, r1,
          Option.bind_eq_bind, Option.some_bind, Option.pure_def]
    next h58 =>
      have n6 : ¬ out.ip_proto.val = 6 := by omega
      have n17 : ¬ out.ip_proto.val = 17 := by omega
      have n1 : ¬ out.ip_proto.val = 1 := by omega
      simp only [if_neg n6, if_neg n17, if_neg n1, if_pos h58]
      by_cases c4 : buf.length < off + 4
      · simp [if_pos c4, have_false c4 (by omega : off + 4 < 2 ^ 64)]
      · have r0 : rd buf off = some (byteAt buf off) := rd_eq (by omega)
        have r1 : rd buf (off + 1) = some (byteAt buf (off + 1)) := rd_eq (by omega)
        simp only [if_neg c4, have_true (Nat.le_of_not_lt c4) (by omega : off + 4 < 2 ^ 64),
          Bool.not_true, Bool.false_eq_true, if_false, Nat.add_zero, r0, r1,
          Option.bind_eq_bind, Option.some_bind, Option.pure_def]
    next n6 n17 n1 n58 =>
      simp only [if_neg n6, if_neg n17, if_neg n1, if_neg n58]

/-! ## `parse_packet` as the composition of its stages -/

theorem parse_packet_of_not_done (buf : List Byte) (h : link_done buf = none) :
    ∃ out, parse_packet buf buf.length = some (PP_TRUNCATED, out) := by
  obtain ⟨out, ho⟩ := link_stage_of_not_done buf h
  exact ⟨out, by simp [parse_packet, ho]⟩

theorem parse_packet_of_done (buf : List Byte) (off e : Nat)
    (h : link_done buf = some (off, e)) :
    parse_packet buf buf.length =
      (network_stage buf buf.length off e (l2_record buf off e)).bind
        (after_network buf buf.length) := by
  simp only [parse_packet, link_stage_of_done buf off e h, Option.bind_eq_bind,
    Option.some_bind]
  cases hn : network_stage buf buf.length off e (l2_record buf off e) with
  | none => rfl
  | some r =>
    cases r with
    | ret st out => rfl
    | next p => rfl

theorem parse_packet_ipv4 (buf : List Byte) (off : Nat)
    (h : link_done buf = some (off, 0x0800)) :
    parse_packet buf buf.length =
      (ipv4_stage buf buf.length off (l2_record buf off 0x0800)).bind
        (after_network buf buf.length) := by
  rw [parse_packet_of_done buf off _ h]
  simp [network_stage]

theorem parse_packet_ipv6 (buf : List Byte) (off : Nat)
    (h : link_done buf = some (off, 0x86DD)) :
    parse_packet buf buf.length =
      (ipv6_stage buf buf.length off (l2_record buf off 0x86DD)).bind
        (after_network buf buf.length) := by
  rw [parse_packet_of_done buf off _ h]
  simp [network_stage]

theorem parse_packet_other (buf : List Byte) (off e : Nat)
    (h : link_done buf = some (off, e)) (h4 : e ≠ 0x0800) (h6 : e ≠ 0x86DD) :
    parse_packet buf buf.length = some (PP_UNSUPPORTED, l2_record buf off e) := by
  rw [parse_packet_of_done buf off _ h]
  simp [network_stage, h4, h6, after_network]

/-- The network-layer stage never reads outside the buffer, and leaves the
cursor at most 60 bytes further. -/
theorem network_stage_some (buf : List Byte) (off e : Nat) (out : parsed_packet)
    (hb : off ≤ 22) :
    ∃ r, network_stage buf buf.length off e out = some r ∧
      ∀ off1 out1, r = flow.next (off1, out1) → off1 ≤ 82 := by
  have hl := ipv4_hlen_le buf off
  unfold network_stage
  by_cases h4 : e = 0x0800
  · simp only [if_pos h4]
    by_cases c : buf.length < off + 20
    · exact ⟨_, ipv4_stage_short buf off out c (by omega), by intro _ _ hr; cases hr⟩
    · refine ⟨_, ipv4_stage_eq buf off out (by omega) (by omega), ?_⟩
      intro off1 out1 hr
      split_ifs at hr
      simp only [flow.next.injEq, Prod.mk.injEq] at hr
      omega
  · simp only [if_neg h4]
    by_cases h6 : e = 0x86DD
    · simp only [if_pos h6]
      by_cases c : buf.length < off + 40
      · exact ⟨_, ipv6_stage_short buf off out c (by omega), by intro _ _ hr; cases hr⟩
      · refine ⟨_, ipv6_stage_eq buf off out (by omega) (by omega), ?_⟩
        intro off1 out1 hr
        split_ifs at hr
        simp only [flow.next.injEq, Prod.mk.injEq] at hr
        omega
    · simp only [if_neg h6]
      exact ⟨_, rfl, by intro _ _ hr; cases hr⟩

/-! ## The claims -/

/-- C1. Read safety of `parse_packet`: for every buffer, with `len` the size of
the buffer, the run of `parse_packet` never takes the out-of-bounds branch of a
byte access: every index it reads is below `len`, so the run ends with a status
(and a record), whatever that status is. -/
theorem parse_packet_read_safe (buf : List Byte) :
    ∃ st out, parse_packet buf buf.length = some (st, out) := by
  cases hd : link_done buf with
  | none =>
    obtain ⟨out, ho⟩ := parse_packet_of_not_done buf hd
    exact ⟨_, out, ho⟩
  | some p =>
    obtain ⟨off, e⟩ := p
    have hoff := (link_done_bounds hd).2.1
    obtain ⟨r, hr, hnext⟩ := network_stage_some buf off e (l2_record buf off e) hoff
    rw [parse_packet_of_done buf off e hd, hr, Option.some_bind]
    cases r with
    | ret st out => exact ⟨st, out, rfl⟩
    | next q =>
      obtain ⟨off1, out1⟩ := q
      have h1 := hnext off1 out1 rfl
      exact ⟨_, _, by
        simp only [after_network]
        rw [transport_stage_eq buf off1 out1 (by omega)]⟩

/-- C3. For every buffer whose length is less than 14, `parse_packet` returns
`PP_TRUNCATED` (and the record is still the zeroed one). -/
theorem parse_packet_short_truncated (buf : List Byte) (h : buf.length < 14) :
    parse_packet buf buf.length = some (PP_TRUNCATED, zero_packet) := by
  simp [parse_packet, link_stage_short buf h]

theorem parse_packet_short_truncated_witness :
    ([0x00, 0x11, 0x22] : List Byte).length < 14 ∧
    parse_packet [0x00, 0x11, 0x22] ([0x00, 0x11, 0x22] : List Byte).length
      = some (PP_TRUNCATED, zero_packet) :=
  ⟨by decide, parse_packet_short_truncated [0x00, 0x11, 0x22] (by decide)⟩

/-- C2. Ethernet/IPv4/UDP field extraction: for every buffer whose bytes 12-13
are 0x0800, whose byte 14 is 0x45, whose byte 23 is 17 and whose Total Length
`T` (bytes 16-17, big-endian) satisfies `28 ≤ T ≤ len - 14`, `parse_packet`
returns `PP_OK` with the MAC addresses, no VLAN, EtherType 0x0800, `l2_len = 14`,
`L3_IPV4`, TTL = byte 22, protocol 17, the two addresses in the first four
bytes of `src_ip` and `dst_ip`, `l3_len = 20`, `ip_payload_len = T - 20`,
`l4_offset = 34`, `L4_UDP` and the two ports of bytes 34-37, whatever bytes
38-41 hold. -/
theorem parse_packet_ipv4_udp (buf : List Byte)
    (hE : be16At buf 12 = 0x0800)
    (hV : byteAt buf 14 = 0x45)
    (hP : byteAt buf 23 = 17)
    (hT1 : 28 ≤ be16At buf 16)
    (hT2 : be16At buf 16 ≤ buf.length - 14) :
    ∃ r, parse_packet buf buf.length = some (PP_OK, r) ∧
      r.dst_mac = bytesAt buf 0 6 ∧
      r.src_mac = bytesAt buf 6 6 ∧
      r.vlan_count = 0 ∧
      r.ethertype = 0x0800 ∧
      r.l2_len = 14 ∧
      r.l3 = L3_IPV4 ∧
      r.ip_ttl_hop = byteAt buf 22 ∧
      r.ip_proto = 17 ∧
      r.src_ip.take 4 = bytesAt buf 26 4 ∧
      r.dst_ip.take 4 = bytesAt buf 30 4 ∧
      r.l3_len = 20 ∧
      r.ip_payload_len = be16At buf 16 - 20 ∧
      r.l4_offset = 34 ∧
      r.l4 = L4_UDP ∧
      r.src_port = 256 * (byteAt buf 34).val + (byteAt buf 35).val ∧
      r.dst_port = 256 * (byteAt buf 36).val + (byteAt buf 37).val := by
  have hlen : 42 ≤ buf.length := by omega
  have hd : link_done buf = some (14, 0x0800) := by
    have h14 : ¬ buf.length < 14 := by omega
    simp [link_done, h14, hE, is_vlan_tag]
  have hver : ip_version buf 14 = 4 := by rw [ip_version, hV]; rfl
  have hihl : ipv4_hlen buf 14 = 20 := by rw [ipv4_hlen, hV]; rfl
  have c2 : ¬ buf.length < 14 + 20 := by omega
  have c3 : ¬ be16At buf 16 < 20 := by omega
  have c4 : ¬ buf.length < 14 + be16At buf 16 := by omega
  have hnet : ipv4_stage buf buf.length 14 (l2_record buf 14 0x0800) =
      some (flow.next (34, ipv4_record buf 14 (l2_record buf 14 0x0800))) := by
    rw [ipv4_stage_eq buf 14 _ (by omega) (by norm_num)]
    simp [hver, hihl, c2, c3, c4]
  have p0 : ¬ (ipv4_record buf 14 (l2_record buf 14 0x0800)).ip_payload_len = 0 := by
    show ¬ be16At buf 16 - ipv4_hlen buf 14 = 0
    omega
  have p17 : (ipv4_record buf 14 (l2_record buf 14 0x0800)).ip_proto.val = 17 := by
    show (byteAt buf 23).val = 17
    rw [hP]; rfl
  have c8 : ¬ buf.length < 34 + 8 := by omega
  have s4 : (bytesAt buf 26 4).length = 4 := bytesAt_length (by omega)
  have d4 : (bytesAt buf 30 4).length = 4 := bytesAt_length (by omega)
  have hres : parse_packet buf buf.length = some (PP_OK,
      { ipv4_record buf 14 (l2_record buf 14 0x0800) with
        l4 := L4_UDP, src_port := be16At buf 34, dst_port := be16At buf 36 }) := by
    rw [parse_packet_ipv4 buf 14 hd, hnet, Option.some_bind]
    simp only [after_network]
    rw [transport_stage_eq buf 34 _ (by norm_num)]
    simp only [if_neg p0, p17, if_neg c8]
    simp
  refine ⟨_, hres, ?_⟩
  simp [ipv4_record, l2_record, hihl, hP, memcpy, be16At, s4, d4]

/-- On the fixture of `main.c`: TTL 64, ports 12345 and 80, L4 offset 34. -/
theorem parse_packet_ipv4_udp_witness :
    ∃ r, parse_packet pkt pkt.length = some (PP_OK, r) ∧
      r.dst_mac = [0x00, 0x11, 0x22, 0x33, 0x44, 0x55] ∧
      r.src_mac = [0x66, 0x77, 0x88, 0x99, 0xaa, 0xbb] ∧
      r.vlan_count = 0 ∧
      r.ethertype = 0x0800 ∧
      r.l2_len = 14 ∧
      r.l3 = L3_IPV4 ∧
      r.ip_ttl_hop = 64 ∧
      r.ip_proto = 17 ∧
      r.src_ip.take 4 = [192, 0, 2, 1] ∧
      r.dst_ip.take 4 = [198, 51, 100, 2] ∧
      r.l3_len = 20 ∧
      r.ip_payload_len = 12 ∧
      r.l4_offset = 34 ∧
      r.l4 = L4_UDP ∧
      r.src_port = 12345 ∧
      r.dst_port = 80 :=
  parse_packet_ipv4_udp pkt (by decide) (by decide) (by decide) (by decide) (by decide)

/-- C4. Unsupported EtherType: when the link layer completes (the buffer has
at least 14 bytes, at most two VLAN tags are stripped, each with its four bytes
inside the buffer) with an EtherType `e` that is neither 0x0800 nor 0x86DD,
`parse_packet` returns `PP_UNSUPPORTED`; the record holds the link-layer
fields only. -/
theorem parse_packet_unsupported (buf : List Byte) (off e : Nat)
    (hd : link_done buf = some (off, e))
    (h4 : e ≠ 0x0800) (h6 : e ≠ 0x86DD) :
    parse_packet buf buf.length = some (PP_UNSUPPORTED, l2_record buf off e) :=
  parse_packet_other buf off e hd h4 h6

/-- ARP on an untagged frame, and three stacked tags: the third tag value is
left as the EtherType, with `vlan_count = 2`. -/
theorem parse_packet_unsupported_witness :
    (link_done arp_pkt = some (14, 0x0806) ∧
      parse_packet arp_pkt arp_pkt.length
        = some (PP_UNSUPPORTED, l2_record arp_pkt 14 0x0806)) ∧
    (link_done vlan3_pkt = some (22, 0x8100) ∧
      parse_packet vlan3_pkt vlan3_pkt.length
        = some (PP_UNSUPPORTED, l2_record vlan3_pkt 22 0x8100) ∧
      (l2_record vlan3_pkt 22 0x8100).vlan_count = 2 ∧
      (l2_record vlan3_pkt 22 0x8100).ethertype = 0x8100) :=
  ⟨⟨by decide,
    parse_packet_unsupported arp_pkt 14 0x0806 (by decide) (by decide) (by decide)⟩,
   ⟨by decide,
    parse_packet_unsupported vlan3_pkt 22 0x8100 (by decide) (by decide) (by decide),
    by decide, by decide⟩⟩

/-! ### What a `PP_OK` result tells -/

theorem exists_of_status {x : Option (pp_status × parsed_packet)} {st : pp_status}
    (h : x.map Prod.fst = some st) : ∃ r, x = some (st, r) := by
  cases x with
  | none => cases h
  | some q =>
    obtain ⟨st1, r⟩ := q
    simp only [Option.map_some', Option.some.injEq] at h
    subst h
    exact ⟨r, rfl⟩

/-- The transport-layer stage leaves the link-layer and network-layer fields
of the record as they are. -/
theorem transport_stage_frame (buf : List Byte) (off : Nat) (out r : parsed_packet)
    (st : pp_status) (hb : off < 2 ^ 32)
    (h : transport_stage buf buf.length off out = some (st, r)) :
    r.dst_mac = out.dst_mac ∧ r.src_mac = out.src_mac ∧ r.vlan_id = out.vlan_id ∧
    r.vlan_count = out.vlan_count ∧ r.ethertype = out.ethertype ∧ r.l2_len = out.l2_len ∧
    r.l3 = out.l3 ∧ r.src_ip = out.src_ip ∧ r.dst_ip = out.dst_ip ∧
    r.ip_ttl_hop = out.ip_ttl_hop ∧ r.ip_proto = out.ip_proto ∧
    r.ip_payload_len = out.ip_payload_len ∧ r.l3_len = out.l3_len ∧
    r.l4_offset = out.l4_offset := by
  rw [transport_stage_eq buf off out hb] at h
  simp only [Option.some.injEq] at h
  split_ifs at h <;> simp only [Prod.mk.injEq] at h <;> obtain ⟨-, rfl⟩ := h <;>
    exact ⟨rfl, rfl, rfl, rfl, rfl, rfl, rfl, rfl, rfl, rfl, rfl, rfl, rfl, rfl⟩

/-- A `PP_OK` result comes from a completed link layer with EtherType 0x0800
and a consistent IPv4 header inside the buffer, or with EtherType 0x86DD and a
consistent IPv6 header inside the buffer, followed by the transport stage. -/
theorem parse_packet_ok_inv (buf : List Byte) (r : parsed_packet)
    (h : parse_packet buf buf.length = some (PP_OK, r)) :
    ∃ off e, link_done buf = some (off, e) ∧
      ((e = 0x0800 ∧ off + 20 ≤ buf.length ∧ ip_version buf off = 4 ∧
          20 ≤ ipv4_hlen buf off ∧ ipv4_hlen buf off ≤ be16At buf (off + 2) ∧
          off + be16At buf (off + 2) ≤ buf.length ∧
          transport_stage buf buf.length (off + ipv4_hlen buf off)
            (ipv4_record buf off (l2_record buf off e)) = some (PP_OK, r)) ∨
       (e = 0x86DD ∧ off + 40 + be16At buf (off + 4) ≤ buf.length ∧
          ip_version buf off = 6 ∧
          transport_stage buf buf.length (off + 40)
            (ipv6_record buf off (l2_record buf off e)) = some (PP_OK, r))) := by
  cases hd : link_done buf with
  | none =>
    obtain ⟨out, ho⟩ := parse_packet_of_not_done buf hd
    rw [ho] at h
    cases h
  | some p =>
    obtain ⟨off, e⟩ := p
    have hoff := (link_done_bounds hd).2.1
    refine ⟨off, e, rfl, ?_⟩
    by_cases h4 : e = 0x0800
    · subst h4
      left
      rw [parse_packet_ipv4 buf off hd] at h
      by_cases c : buf.length < off + 20
      · rw [ipv4_stage_short buf off _ c (by omega)] at h
        cases h
      · rw [ipv4_stage_eq buf off _ (by omega) (by omega)] at h
        simp only [Option.some_bind] at h
        split_ifs at h with c1 c2 c3 c4
        · cases h
        · cases h
        · cases h
        · cases h
        · simp only [after_network] at h
          refine ⟨rfl, by omega, ?_, ?_, by omega, by omega, h⟩
          · by_contra hv; exact c1 (Or.inl hv)
          · by_contra hv; exact c1 (Or.inr (by omega))
    · by_cases h6 : e = 0x86DD
      · subst h6
        right
        rw [parse_packet_ipv6 buf off hd] at h
        by_cases c : buf.length < off + 40
        · rw [ipv6_stage_short buf off _ c (by omega)] at h
          cases h
        · rw [ipv6_stage_eq buf off _ (by omega) (by omega)] at h
          simp only [Option.some_bind] at h
          split_ifs at h with c1 c2
          · cases h
          · cases h
          · simp only [after_network] at h
            exact ⟨rfl, by omega, by_contra c1, h⟩
      · rw [parse_packet_other buf off e hd h4 h6] at h
        cases h

/-! ### The remaining claims on the link and network layers -/

/-- C5. VLAN stacking: on every buffer whose bytes 12-13 and bytes 16-17 are
each 0x8100 or 0x88A8 and whose bytes 20-21 are 0x0800, a `PP_OK` result has
`vlan_count = 2`, `vlan_id[0]` and `vlan_id[1]` equal to the low 12 bits of the
big-endian values at bytes 14-15 and 18-19, `ethertype = 0x0800` and
`l2_len = 22`; and there is such a buffer on which the result is `PP_OK`. -/
theorem parse_packet_vlan_stacking :
    (∀ (buf : List Byte) (r : parsed_packet),
      is_vlan_tag (be16At buf 12) = true →
      is_vlan_tag (be16At buf 16) = true →
      be16At buf 20 = 0x0800 →
      parse_packet buf buf.length = some (PP_OK, r) →
      r.vlan_count = 2 ∧
      r.vlan_id.get? 0 = some (be16At buf 14 % 4096) ∧
      r.vlan_id.get? 1 = some (be16At buf 18 % 4096) ∧
      r.ethertype = 0x0800 ∧
      r.l2_len = 22) ∧
    (∃ (buf : List Byte) (r : parsed_packet),
      is_vlan_tag (be16At buf 12) = true ∧
      is_vlan_tag (be16At buf 16) = true ∧
      be16At buf 20 = 0x0800 ∧
      parse_packet buf buf.length = some (PP_OK, r)) := by
  constructor
  · intro buf r h0 h1 h2 hok
    obtain ⟨off, e, hd, hcase⟩ := parse_packet_ok_inv buf r hok
    have hb := (link_done_bounds hd).2.1
    have hdone : off = 22 ∧ e = 0x0800 := by
      unfold link_done at hd
      simp only [h0, h1, h2, Bool.not_true, Bool.false_eq_true, if_false] at hd
      split_ifs at hd
      simp only [Option.some.injEq, Prod.mk.injEq] at hd
      exact ⟨hd.1.symm, hd.2.symm⟩
    obtain ⟨rfl, rfl⟩ := hdone
    rcases hcase with ⟨-, -, -, -, -, -, ht⟩ | ⟨h6, -⟩
    · have hf := transport_stage_frame buf _ _ r PP_OK
        (by have := ipv4_hlen_le buf 22; omega) ht
      obtain ⟨-, -, hid, hcnt, het, hl2, -⟩ := hf
      rw [hid, hcnt, het, hl2]
      simp [ipv4_record, l2_record]
    · cases h6
  · obtain ⟨r, hr⟩ := exists_of_status
      (show (parse_packet vlan2_pkt vlan2_pkt.length).map Prod.fst = some PP_OK by decide)
    exact ⟨vlan2_pkt, r, by decide, by decide, by decide, hr⟩

/-- Two stacked tags in front of the IPv4/UDP datagram of `main.c`: the result
is `PP_OK` with VLAN identifiers 0x064 = 100 and 0x0C8 = 200. -/
theorem parse_packet_vlan_stacking_witness :
    ∃ r, parse_packet vlan2_pkt vlan2_pkt.length = some (PP_OK, r) ∧
      r.vlan_count = 2 ∧
      r.vlan_id.get? 0 = some 100 ∧
      r.vlan_id.get? 1 = some 200 ∧
      r.ethertype = 0x0800 ∧
      r.l2_len = 22 := by
  obtain ⟨r, hr⟩ := exists_of_status
    (show (parse_packet vlan2_pkt vlan2_pkt.length).map Prod.fst = some PP_OK by decide)
  exact ⟨r, hr,
    parse_packet_vlan_stacking.1 vlan2_pkt r (by decide) (by decide) (by decide) hr⟩

/-- C6. IPv4 version/IHL check: when the link layer completes at cursor `off`
with EtherType 0x0800 and `off + 20 ≤ len`, a high nibble of `byte[off]` other
than 4, or four times its low nibble below 20, makes `parse_packet` return
`PP_MALFORMED`. -/
theorem parse_packet_ipv4_bad_header (buf : List Byte) (off : Nat)
    (hd : link_done buf = some (off, 0x0800))
    (h20 : off + 20 ≤ buf.length)
    (hbad : (byteAt buf off).val / 16 ≠ 4 ∨ 4 * ((byteAt buf off).val % 16) < 20) :
    parse_packet buf buf.length = some (PP_MALFORMED, l2_record buf off 0x0800) := by
  have hoff := (link_done_bounds hd).2.1
  have c1 : ip_version buf off ≠ 4 ∨ ipv4_hlen buf off < 20 := hbad
  rw [parse_packet_ipv4 buf off hd, ipv4_stage_eq buf off _ h20 (by omega), if_pos c1]
  rfl

theorem parse_packet_ipv4_bad_header_witness :
    (link_done pkt_bad_version = some (14, 0x0800) ∧
      (byteAt pkt_bad_version 14).val / 16 = 5 ∧
      parse_packet pkt_bad_version pkt_bad_version.length
        = some (PP_MALFORMED, l2_record pkt_bad_version 14 0x0800)) ∧
    (link_done pkt_bad_ihl = some (14, 0x0800) ∧
      4 * ((byteAt pkt_bad_ihl 14).val % 16) = 16 ∧
      parse_packet pkt_bad_ihl pkt_bad_ihl.length
        = some (PP_MALFORMED, l2_record pkt_bad_ihl 14 0x0800)) :=
  ⟨⟨by decide, by decide,
    parse_packet_ipv4_bad_header pkt_bad_version 14 (by decide) (by decide) (by decide)⟩,
   ⟨by decide, by decide,
    parse_packet_ipv4_bad_header pkt_bad_ihl 14 (by decide) (by decide) (by decide)⟩⟩

/-- C7. IPv4 Total Length below the header length: when the link layer
completes at cursor `off` with EtherType 0x0800, `byte[off]` has version nibble
4 and header length `H = 4 × IHL ≥ 20`, and `off + H ≤ len`, a Total Length
(bytes `off+2..off+3`, big-endian) smaller than `H` makes `parse_packet` return
`PP_MALFORMED`. -/
theorem parse_packet_ipv4_total_below_header (buf : List Byte) (off : Nat)
    (hd : link_done buf = some (off, 0x0800))
    (hv : (byteAt buf off).val / 16 = 4)
    (hH : 20 ≤ 4 * ((byteAt buf off).val % 16))
    (havail : off + 4 * ((byteAt buf off).val % 16) ≤ buf.length)
    (hT : be16At buf (off + 2) < 4 * ((byteAt buf off).val % 16)) :
    parse_packet buf buf.length = some (PP_MALFORMED, l2_record buf off 0x0800) := by
  have hoff := (link_done_bounds hd).2.1
  have c1 : ¬ (ip_version buf off ≠ 4 ∨ ipv4_hlen buf off < 20) := by
    unfold ip_version ipv4_hlen
    omega
  have c2 : ¬ buf.length < off + ipv4_hlen buf off := by
    unfold ipv4_hlen
    omega
  have c3 : be16At buf (off + 2) < ipv4_hlen buf off := hT
  rw [parse_packet_ipv4 buf off hd, ipv4_stage_eq buf off _ (by omega) (by omega),
    if_neg c1, if_neg c2, if_pos c3]
  rfl

theorem parse_packet_ipv4_total_below_header_witness :
    link_done pkt_small_total = some (14, 0x0800) ∧
    be16At pkt_small_total 16 = 16 ∧
    parse_packet pkt_small_total pkt_small_total.length
      = some (PP_MALFORMED, l2_record pkt_small_total 14 0x0800) :=
  ⟨by decide, by decide,
   parse_packet_ipv4_total_below_header pkt_small_total 14 (by decide) (by decide)
     (by decide) (by decide) (by decide)⟩

/-- C8. IPv4 Total Length beyond the buffer: when the link layer completes at
cursor `off` with EtherType 0x0800, `off + 20 ≤ len`, the version nibble is 4
and the header length `4 × IHL` is at least 20, a Total Length greater than
`len - off` makes `parse_packet` return `PP_TRUNCATED`. -/
theorem parse_packet_ipv4_total_beyond_buffer (buf : List Byte) (off : Nat)
    (hd : link_done buf = some (off, 0x0800))
    (h20 : off + 20 ≤ buf.length)
    (hv : (byteAt buf off).val / 16 = 4)
    (hH : 20 ≤ 4 * ((byteAt buf off).val % 16))
    (hT : be16At buf (off + 2) > buf.length - off) :
    parse_packet buf buf.length = some (PP_TRUNCATED, l2_record buf off 0x0800) := by
  have hoff := (link_done_bounds hd).2.1
  have c1 : ¬ (ip_version buf off ≠ 4 ∨ ipv4_hlen buf off < 20) := by
    unfold ip_version ipv4_hlen
    omega
  rw [parse_packet_ipv4 buf off hd, ipv4_stage_eq buf off _ h20 (by omega), if_neg c1]
  by_cases c2 : buf.length < off + ipv4_hlen buf off
  · rw [if_pos c2]
    rfl
  · have c3 : ¬ be16At buf (off + 2) < ipv4_hlen buf off := by omega
    have c4 : buf.length < off + be16At buf (off + 2) := by omega
    rw [if_neg c2, if_neg c3, if_pos c4]
    rfl

theorem parse_packet_ipv4_total_beyond_buffer_witness :
    link_done pkt_big_total = some (14, 0x0800) ∧
    be16At pkt_big_total 16 = 33 ∧
    pkt_big_total.length - 14 = 32 ∧
    parse_packet pkt_big_total pkt_big_total.length
      = some (PP_TRUNCATED, l2_record pkt_big_total 14 0x0800) :=
  ⟨by decide, by decide, by decide,
   parse_packet_ipv4_total_beyond_buffer pkt_big_total 14 (by decide) (by decide)
     (by decide) (by decide) (by decide)⟩

/-- C9. IPv6 version check: when the link layer completes at cursor `off` with
EtherType 0x86DD and `off + 40 ≤ len`, a high nibble of `byte[off]` other than
6 makes `parse_packet` return `PP_MALFORMED`. -/
theorem parse_packet_ipv6_bad_version (buf : List Byte) (off : Nat)
    (hd : link_done buf = some (off, 0x86DD))
    (h40 : off + 40 ≤ buf.length)
    (hv : (byteAt buf off).val / 16 ≠ 6) :
    parse_packet buf buf.length = some (PP_MALFORMED, l2_record buf off 0x86DD) := by
  have hoff := (link_done_bounds hd).2.1
  have c1 : ip_version buf off ≠ 6 := hv
  rw [parse_packet_ipv6 buf off hd, ipv6_stage_eq buf off _ h40 (by omega), if_pos c1]
  rfl

theorem parse_packet_ipv6_bad_version_witness :
    link_done pkt6_bad_version = some (14, 0x86DD) ∧
    (byteAt pkt6_bad_version 14).val / 16 = 4 ∧
    parse_packet pkt6_bad_version pkt6_bad_version.length
      = some (PP_MALFORMED, l2_record pkt6_bad_version 14 0x86DD) :=
  ⟨by decide, by decide,
   parse_packet_ipv6_bad_version pkt6_bad_version 14 (by decide) (by decide) (by decide)⟩

/-- C10. IPv6 payload bound: when the link layer completes at cursor `off` with
EtherType 0x86DD, `off + 40 ≤ len` and the version nibble is 6, a Payload
Length (bytes `off+4..off+5`, big-endian) with `40 + PayloadLength > len - off`,
the sum taken in the natural numbers, makes `parse_packet` return
`PP_TRUNCATED`. -/
theorem parse_packet_ipv6_payload_beyond_buffer (buf : List Byte) (off : Nat)
    (hd : link_done buf = some (off, 0x86DD))
    (h40 : off + 40 ≤ buf.length)
    (hv : (byteAt buf off).val / 16 = 6)
    (hP : 40 + be16At buf (off + 4) > buf.length - off) :
    parse_packet buf buf.length = some (PP_TRUNCATED, l2_record buf off 0x86DD) := by
  have hoff := (link_done_bounds hd).2.1
  have c1 : ¬ ip_version buf off ≠ 6 := by
    unfold ip_version
    omega
  have c2 : buf.length < off + (40 + be16At buf (off + 4)) := by omega
  rw [parse_packet_ipv6 buf off hd, ipv6_stage_eq buf off _ h40 (by omega), if_neg c1,
    if_pos c2]
  rfl

theorem parse_packet_ipv6_payload_beyond_buffer_witness :
    link_done pkt6_big_payload = some (14, 0x86DD) ∧
    be16At pkt6_big_payload 18 = 9 ∧
    pkt6_big_payload.length - 14 = 48 ∧
    parse_packet pkt6_big_payload pkt6_big_payload.length
      = some (PP_TRUNCATED, l2_record pkt6_big_payload 14 0x86DD) :=
  ⟨by decide, by decide, by decide,
   parse_packet_ipv6_payload_beyond_buffer pkt6_big_payload 14 (by decide) (by decide)
     (by decide) (by decide)⟩

/-! ## The link and network layers together -/

theorem network_done_inv {buf : List Byte} {o : Nat} {out : parsed_packet}
    (h : network_done buf = some (o, out)) :
    ∃ off e, link_done buf = some (off, e) ∧
      ((e = 0x0800 ∧ off + 20 ≤ buf.length ∧ ip_version buf off = 4 ∧
          20 ≤ ipv4_hlen buf off ∧ ipv4_hlen buf off ≤ be16At buf (off + 2) ∧
          off + be16At buf (off + 2) ≤ buf.length ∧
          o = off + ipv4_hlen buf off ∧ out = ipv4_record buf off (l2_record buf off e)) ∨
       (e = 0x86DD ∧ off + 40 ≤ buf.length ∧ ip_version buf off = 6 ∧
          off + (40 + be16At buf (off + 4)) ≤ buf.length ∧
          o = off + 40 ∧ out = ipv6_record buf off (l2_record buf off e))) := by
  unfold network_done at h
  cases hd : link_done buf with
  | none => rw [hd] at h; cases h
  | some p =>
    obtain ⟨off, e⟩ := p
    rw [hd] at h
    refine ⟨off, e, rfl, ?_⟩
    simp only at h
    split_ifs at h with h4 c4 h6 c6
    · simp only [Option.some.injEq, Prod.mk.injEq] at h
      obtain ⟨c1, c2, c3, c5, c7⟩ := c4
      exact Or.inl ⟨h4, c1, c2, c3, c5, c7, h.1.symm, h.2.symm⟩
    · simp only [Option.some.injEq, Prod.mk.injEq] at h
      obtain ⟨c1, c2, c3⟩ := c6
      exact Or.inr ⟨h6, c1, c2, c3, h.1.symm, h.2.symm⟩

/-- When the link and network layers, read by position, are complete, the two
first stages of the code run to their end and `parse_packet` is the
transport-layer stage at the cursor and on the record of `network_done`. -/
theorem parse_packet_of_network_done (buf : List Byte) (o : Nat) (out : parsed_packet)
    (h : network_done buf = some (o, out)) :
    parse_packet buf buf.length = transport_stage buf buf.length o out := by
  obtain ⟨off, e, hd, hc⟩ := network_done_inv h
  have hoff := (link_done_bounds hd).2.1
  rcases hc with ⟨rfl, c1, c2, c3, c4, c5, rfl, rfl⟩ | ⟨rfl, c1, c2, c3, rfl, rfl⟩
  · have n1 : ¬ (ip_version buf off ≠ 4 ∨ ipv4_hlen buf off < 20) := by omega
    have n2 : ¬ buf.length < off + ipv4_hlen buf off := by omega
    have n3 : ¬ be16At buf (off + 2) < ipv4_hlen buf off := by omega
    have n4 : ¬ buf.length < off + be16At buf (off + 2) := by omega
    rw [parse_packet_ipv4 buf off hd, ipv4_stage_eq buf off _ c1 (by omega), if_neg n1,
      if_neg n2, if_neg n3, if_neg n4]
    rfl
  · have n1 : ¬ ip_version buf off ≠ 6 := by omega
    have n2 : ¬ buf.length < off + (40 + be16At buf (off + 4)) := by omega
    rw [parse_packet_ipv6 buf off hd, ipv6_stage_eq buf off _ c1 (by omega), if_neg n1,
      if_neg n2]
    rfl

/-- A `PP_OK` result comes from complete link and network layers, followed by
the transport-layer stage. -/
theorem network_done_of_ok (buf : List Byte) (r : parsed_packet)
    (h : parse_packet buf buf.length = some (PP_OK, r)) :
    ∃ o out, network_done buf = some (o, out) ∧
      transport_stage buf buf.length o out = some (PP_OK, r) := by
  obtain ⟨off, e, hd, hc⟩ := parse_packet_ok_inv buf r h
  rcases hc with ⟨rfl, c1, c2, c3, c4, c5, ht⟩ | ⟨rfl, c1, c2, ht⟩
  · refine ⟨_, _, ?_, ht⟩
    have c : off + 20 ≤ buf.length ∧ ip_version buf off = 4 ∧ 20 ≤ ipv4_hlen buf off ∧
        ipv4_hlen buf off ≤ be16At buf (off + 2) ∧
        off + be16At buf (off + 2) ≤ buf.length := ⟨c1, c2, c3, c4, c5⟩
    simp only [network_done, hd, if_true, if_pos c]
  · refine ⟨_, _, ?_, ht⟩
    have c : off + 40 ≤ buf.length ∧ ip_version buf off = 6 ∧
        off + (40 + be16At buf (off + 4)) ≤ buf.length := ⟨by omega, c2, by omega⟩
    simp [network_done, hd, c]

/-- Facts on the cursor and the record of `network_done`. -/
theorem network_done_facts {buf : List Byte} {o : Nat} {out : parsed_packet}
    (h : network_done buf = some (o, out)) :
    o ≤ 82 ∧ out.l4_offset = o ∧ o + out.ip_payload_len ≤ buf.length ∧
      out.l4 = L4_NONE ∧ out.src_port = 0 ∧ out.dst_port = 0 ∧
      out.icmp_type = 0 ∧ out.icmp_code = 0 := by
  obtain ⟨off, e, hd, hc⟩ := network_done_inv h
  have hoff := (link_done_bounds hd).2.1
  have hl := ipv4_hlen_le buf off
  rcases hc with ⟨rfl, c1, c2, c3, c4, c5, rfl, rfl⟩ | ⟨rfl, c1, c2, c3, rfl, rfl⟩
  · refine ⟨by omega, rfl, ?_, rfl, rfl, rfl, rfl, rfl⟩
    show off + ipv4_hlen buf off + (be16At buf (off + 2) - ipv4_hlen buf off) ≤ buf.length
    omega
  · refine ⟨by omega, rfl, ?_, rfl, rfl, rfl, rfl, rfl⟩
    show off + 40 + be16At buf (off + 4) ≤ buf.length
    omega

/-- The six ways in which the transport-layer stage returns `PP_OK`. -/
theorem transport_stage_ok_cases (buf : List Byte) (o : Nat) (out r : parsed_packet)
    (hb : o < 2 ^ 32)
    (h : transport_stage buf buf.length o out = some (PP_OK, r)) :
    (out.ip_payload_len = 0 ∧ r = { out with l4 := L4_NONE }) ∨
    (out.ip_payload_len ≠ 0 ∧ out.ip_proto.val = 6 ∧ o + 20 ≤ buf.length ∧
      20 ≤ tcp_data_offset buf o ∧ o + tcp_data_offset buf o ≤ buf.length ∧
      tcp_data_offset buf o ≤ out.ip_payload_len ∧
      r = { out with
        l4 := L4_TCP, src_port := be16At buf o, dst_port := be16At buf (o + 2) }) ∨
    (out.ip_payload_len ≠ 0 ∧ out.ip_proto.val = 17 ∧ o + 8 ≤ buf.length ∧
      r = { out with
        l4 := L4_UDP, src_port := be16At buf o, dst_port := be16At buf (o + 2) }) ∨
    (out.ip_payload_len ≠ 0 ∧ out.ip_proto.val = 1 ∧ o + 4 ≤ buf.length ∧
      r = { out with
        l4 := L4_ICMP, icmp_type := byteAt buf o, icmp_code := byteAt buf (o + 1) }) ∨
    (out.ip_payload_len ≠ 0 ∧ out.ip_proto.val = 58 ∧ o + 4 ≤ buf.length ∧
      r = { out with
        l4 := L4_ICMPV6, icmp_type := byteAt buf o, icmp_code := byteAt buf (o + 1) }) ∨
    (out.ip_payload_len ≠ 0 ∧ out.ip_proto.val ≠ 6 ∧ out.ip_proto.val ≠ 17 ∧
      out.ip_proto.val ≠ 1 ∧ out.ip_proto.val ≠ 58 ∧ r = { out with l4 := L4_NONE }) := by
  rw [transport_stage_eq buf o out hb] at h
  simp only [Option.some.injEq] at h
  split_ifs at h with c0 p6 c20 d1 d2 d3 p17 c8 p1 c4 p58 c4
  all_goals simp only [Prod.mk.injEq, reduceCtorEq, false_and] at h
  · exact Or.inl ⟨c0, h.2.symm⟩
  · exact Or.inr (Or.inl ⟨c0, p6, by omega, by omega, by omega, by omega, h.2.symm⟩)
  · exact Or.inr (Or.inr (Or.inl ⟨c0, p17, by omega, h.2.symm⟩))
  · exact Or.inr (Or.inr (Or.inr (Or.inl ⟨c0, p1, by omega, h.2.symm⟩)))
  · exact Or.inr (Or.inr (Or.inr (Or.inr (Or.inl ⟨c0, p58, by omega, h.2.symm⟩))))
  · exact Or.inr (Or.inr (Or.inr (Or.inr (Or.inr ⟨c0, p6, p17, p1, p58, h.2.symm⟩))))

/-! ### The claims on the transport layer -/

/-- C11. TCP data-offset validation: when the link and network layers are
complete (IPv4 or IPv6) with protocol number 6, `ip_payload_len = P > 0`,
transport cursor `o = l4_offset` and `o + 20 ≤ len`, let `D` be four times the
high nibble of `byte[o+12]`.  Then `parse_packet` returns `PP_MALFORMED` if
`D < 20`; `PP_MALFORMED` if `D ≥ 20`, `o + D ≤ len` and `D > P`; and `PP_OK`
with `l4 = L4_TCP` and the two ports of bytes `o..o+3` if `20 ≤ D ≤ P` and
`o + D ≤ len`.  And every `PP_OK` result tagged `L4_TCP` has
`20 ≤ D ≤ ip_payload_len`. -/
theorem parse_packet_tcp_data_offset :
    (∀ (buf : List Byte) (o : Nat) (out : parsed_packet),
      network_done buf = some (o, out) →
      out.ip_proto.val = 6 →
      0 < out.ip_payload_len →
      o + 20 ≤ buf.length →
      out.l4_offset = o ∧
      (4 * ((byteAt buf (o + 12)).val / 16) < 20 →
        ∃ r, parse_packet buf buf.length = some (PP_MALFORMED, r)) ∧
      (20 ≤ 4 * ((byteAt buf (o + 12)).val / 16) →
        o + 4 * ((byteAt buf (o + 12)).val / 16) ≤ buf.length →
        4 * ((byteAt buf (o + 12)).val / 16) > out.ip_payload_len →
        ∃ r, parse_packet buf buf.length = some (PP_MALFORMED, r)) ∧
      (20 ≤ 4 * ((byteAt buf (o + 12)).val / 16) →
        4 * ((byteAt buf (o + 12)).val / 16) ≤ out.ip_payload_len →
        o + 4 * ((byteAt buf (o + 12)).val / 16) ≤ buf.length →
        ∃ r, parse_packet buf buf.length = some (PP_OK, r) ∧ r.l4 = L4_TCP ∧
          r.src_port = be16At buf o ∧ r.dst_port = be16At buf (o + 2))) ∧
    (∀ (buf : List Byte) (r : parsed_packet),
      parse_packet buf buf.length = some (PP_OK, r) →
      r.l4 = L4_TCP →
      20 ≤ 4 * ((byteAt buf (r.l4_offset + 12)).val / 16) ∧
      4 * ((byteAt buf (r.l4_offset + 12)).val / 16) ≤ r.ip_payload_len) := by
  constructor
  · intro buf o out hn h6 hP h20
    have hf := network_done_facts hn
    have hD : tcp_data_offset buf o = 4 * ((byteAt buf (o + 12)).val / 16) := rfl
    have hdl := tcp_data_offset_le buf o
    have c0 : ¬ out.ip_payload_len = 0 := by omega
    have c20 : ¬ buf.length < o + 20 := by omega
    have hp : parse_packet buf buf.length = _ :=
      (parse_packet_of_network_done buf o out hn).trans
        (transport_stage_eq buf o out (by omega))
    rw [if_neg c0, if_pos h6, if_neg c20] at hp
    refine ⟨hf.2.1, ?_, ?_, ?_⟩
    · intro d1
      rw [if_pos (by omega : tcp_data_offset buf o < 20)] at hp
      exact ⟨_, hp⟩
    · intro d1 d2 d3
      rw [if_neg (by omega : ¬ tcp_data_offset buf o < 20),
        if_neg (by omega : ¬ buf.length < o + tcp_data_offset buf o),
        if_pos (by omega : tcp_data_offset buf o > out.ip_payload_len)] at hp
      exact ⟨_, hp⟩
    · intro d1 d3 d2
      rw [if_neg (by omega : ¬ tcp_data_offset buf o < 20),
        if_neg (by omega : ¬ buf.length < o + tcp_data_offset buf o),
        if_neg (by omega : ¬ tcp_data_offset buf o > out.ip_payload_len)] at hp
      exact ⟨_, hp, rfl, rfl, rfl⟩
  · intro buf r hok htcp
    obtain ⟨o, out, hn, ht⟩ := network_done_of_ok buf r hok
    have hf := network_done_facts hn
    have hD : tcp_data_offset buf o = 4 * ((byteAt buf (o + 12)).val / 16) := rfl
    rcases transport_stage_ok_cases buf o out r (by omega) ht with
      ⟨-, rfl⟩ | ⟨-, -, -, d1, -, d3, rfl⟩ | ⟨-, -, -, rfl⟩ | ⟨-, -, -, rfl⟩ |
      ⟨-, -, -, rfl⟩ | ⟨-, -, -, -, -, rfl⟩
    · simp only [hf.2.2.2.1, reduceCtorEq] at htcp
    · show 20 ≤ 4 * ((byteAt buf (out.l4_offset + 12)).val / 16) ∧
        4 * ((byteAt buf (out.l4_offset + 12)).val / 16) ≤ out.ip_payload_len
      rw [hf.2.1]
      omega
    · cases htcp
    · cases htcp
    · cases htcp
    · simp only [hf.2.2.2.1, reduceCtorEq] at htcp

/-- On the frame `pkt_tcp` (data offset 20, payload 20): `PP_OK`, `L4_TCP`,
ports 443 and 51000; with data offset 16, and with payload 12:
`PP_MALFORMED`. -/
theorem parse_packet_tcp_data_offset_witness :
    (∃ r, parse_packet pkt_tcp pkt_tcp.length = some (PP_OK, r) ∧ r.l4 = L4_TCP ∧
      r.src_port = 443 ∧ r.dst_port = 51000) ∧
    (∃ r, parse_packet pkt_tcp_small_offset pkt_tcp_small_offset.length
      = some (PP_MALFORMED, r)) ∧
    (∃ r, parse_packet pkt_tcp_small_payload pkt_tcp_small_payload.length
      = some (PP_MALFORMED, r)) :=
  ⟨(parse_packet_tcp_data_offset.1 pkt_tcp 34
      (ipv4_record pkt_tcp 14 (l2_record pkt_tcp 14 0x0800))
      (by decide) (by decide) (by decide) (by decide)).2.2.2
      (by decide) (by decide) (by decide),
   (parse_packet_tcp_data_offset.1 pkt_tcp_small_offset 34
      (ipv4_record pkt_tcp_small_offset 14 (l2_record pkt_tcp_small_offset 14 0x0800))
      (by decide) (by decide) (by decide) (by decide)).2.1 (by decide),
   (parse_packet_tcp_data_offset.1 pkt_tcp_small_payload 34
      (ipv4_record pkt_tcp_small_payload 14 (l2_record pkt_tcp_small_payload 14 0x0800))
      (by decide) (by decide) (by decide) (by decide)).2.2.1
      (by decide) (by decide) (by decide)⟩

/-- C12. Unrecognised transport protocol is success: when the link and network
layers are complete (IPv4 or IPv6) with a nonzero `ip_payload_len` and a
protocol number / Next Header outside {6, 17, 1, 58}, `parse_packet` returns
`PP_OK` with `l4 = L4_NONE` and the record of the network layer as it is,
whatever bytes follow the network header. -/
theorem parse_packet_unknown_transport (buf : List Byte) (o : Nat) (out : parsed_packet)
    (hn : network_done buf = some (o, out))
    (hP : out.ip_payload_len ≠ 0)
    (h6 : out.ip_proto.val ≠ 6) (h17 : out.ip_proto.val ≠ 17)
    (h1 : out.ip_proto.val ≠ 1) (h58 : out.ip_proto.val ≠ 58) :
    ∃ r, parse_packet buf buf.length = some (PP_OK, r) ∧ r.l4 = L4_NONE ∧ r = out := by
  have hf := network_done_facts hn
  have hp : parse_packet buf buf.length = _ :=
    (parse_packet_of_network_done buf o out hn).trans
      (transport_stage_eq buf o out (by omega))
  rw [if_neg hP, if_neg h6, if_neg h17, if_neg h1, if_neg h58] at hp
  refine ⟨_, hp, rfl, ?_⟩
  have h4 := hf.2.2.2.1
  cases out
  simp only at h4
  subst h4
  rfl

/-- On the fixture of `main.c` with protocol number 47: `PP_OK` and `L4_NONE`,
with 12 bytes of payload declared. -/
theorem parse_packet_unknown_transport_witness :
    ∃ r, parse_packet pkt_gre pkt_gre.length = some (PP_OK, r) ∧ r.l4 = L4_NONE ∧
      r = ipv4_record pkt_gre 14 (l2_record pkt_gre 14 0x0800) :=
  parse_packet_unknown_transport pkt_gre 34
    (ipv4_record pkt_gre 14 (l2_record pkt_gre 14 0x0800))
    (by decide) (by decide) (by decide) (by decide) (by decide) (by decide)

/-- C13. Empty payload is success: when the link and network layers are
complete with `ip_payload_len = 0` (IPv4 Total Length equal to the header
length, or IPv6 Payload Length 0), `parse_packet` returns `PP_OK` with
`l4 = L4_NONE` and `ip_payload_len = 0`, whatever the protocol number and
whether or not a byte follows the network header. -/
theorem parse_packet_empty_payload (buf : List Byte) (o : Nat) (out : parsed_packet)
    (hn : network_done buf = some (o, out))
    (hP : out.ip_payload_len = 0) :
    ∃ r, parse_packet buf buf.length = some (PP_OK, r) ∧ r.l4 = L4_NONE ∧
      r.ip_payload_len = 0 ∧ r.ip_proto = out.ip_proto := by
  have hf := network_done_facts hn
  have hp : parse_packet buf buf.length = _ :=
    (parse_packet_of_network_done buf o out hn).trans
      (transport_stage_eq buf o out (by omega))
  rw [if_pos hP] at hp
  exact ⟨_, hp, rfl, hP, rfl⟩

/-- An IPv4 header with Total Length 20 and protocol 6, and an IPv6 header with
Payload Length 0 and Next Header 58, each with no byte after it. -/
theorem parse_packet_empty_payload_witness :
    (pkt_empty_payload.length = 34 ∧
      ∃ r, parse_packet pkt_empty_payload pkt_empty_payload.length = some (PP_OK, r) ∧
        r.l4 = L4_NONE ∧ r.ip_payload_len = 0 ∧ r.ip_proto = 6) ∧
    (pkt6_empty_payload.length = 54 ∧
      ∃ r, parse_packet pkt6_empty_payload pkt6_empty_payload.length = some (PP_OK, r) ∧
        r.l4 = L4_NONE ∧ r.ip_payload_len = 0 ∧ r.ip_proto = 58) :=
  ⟨⟨by decide,
    parse_packet_empty_payload pkt_empty_payload 34
      (ipv4_record pkt_empty_payload 14 (l2_record pkt_empty_payload 14 0x0800))
      (by decide) (by decide)⟩,
   ⟨by decide,
    parse_packet_empty_payload pkt6_empty_payload 54
      (ipv6_record pkt6_empty_payload 14 (l2_record pkt6_empty_payload 14 0x86DD))
      (by decide) (by decide)⟩⟩

set_option maxRecDepth 8000 in
theorem is_ipv6_ext_iff (nh : Byte) : is_ipv6_ext nh = true ↔ nh.val ∈ ipv6_ext_values := by
  revert nh
  decide

/-- C14. IPv6 decoding without extension-header traversal: when the link layer
completes at cursor `off` with EtherType 0x86DD, the version nibble is 6 and
`off + 40 + PayloadLength ≤ len`, a Next Header byte among
{0, 43, 44, 50, 51, 60} gives `PP_OK` with `l3 = L3_IPV6`, `ip_proto` equal to
that byte, `l4 = L4_NONE`, `ip_ttl_hop = byte[off+7]`, `src_ip` and `dst_ip` the
bytes `off+8..off+23` and `off+24..off+39`, `l3_len = 40`,
`ip_payload_len = PayloadLength` and `l4_offset = off + 40`. -/
theorem parse_packet_ipv6_extension (buf : List Byte) (off : Nat)
    (hd : link_done buf = some (off, 0x86DD))
    (hv : (byteAt buf off).val / 16 = 6)
    (hlen : off + 40 + be16At buf (off + 4) ≤ buf.length)
    (hnh : (byteAt buf (off + 6)).val ∈ ipv6_ext_values) :
    ∃ r, parse_packet buf buf.length = some (PP_OK, r) ∧
      r.l3 = L3_IPV6 ∧
      r.ip_proto = byteAt buf (off + 6) ∧
      r.l4 = L4_NONE ∧
      r.ip_ttl_hop = byteAt buf (off + 7) ∧
      r.src_ip = bytesAt buf (off + 8) 16 ∧
      r.dst_ip = bytesAt buf (off + 24) 16 ∧
      r.l3_len = 40 ∧
      r.ip_payload_len = be16At buf (off + 4) ∧
      r.l4_offset = off + 40 := by
  have hoff := (link_done_bounds hd).2.1
  have c : off + 40 ≤ buf.length ∧ ip_version buf off = 6 ∧
      off + (40 + be16At buf (off + 4)) ≤ buf.length := ⟨by omega, hv, by omega⟩
  have hn : network_done buf
      = some (off + 40, ipv6_record buf off (l2_record buf off 0x86DD)) := by
    simp [network_done, hd, c]
  have hp : parse_packet buf buf.length = _ :=
    (parse_packet_of_network_done buf _ _ hn).trans
      (transport_stage_eq buf _ _ (by omega))
  have hproto : (ipv6_record buf off (l2_record buf off 0x86DD)).ip_proto.val
      = (byteAt buf (off + 6)).val := rfl
  have n6 : ¬ (ipv6_record buf off (l2_record buf off 0x86DD)).ip_proto.val = 6 := by
    rw [hproto]; intro h; rw [h] at hnh; revert hnh; decide
  have n17 : ¬ (ipv6_record buf off (l2_record buf off 0x86DD)).ip_proto.val = 17 := by
    rw [hproto]; intro h; rw [h] at hnh; revert hnh; decide
  have n1 : ¬ (ipv6_record buf off (l2_record buf off 0x86DD)).ip_proto.val = 1 := by
    rw [hproto]; intro h; rw [h] at hnh; revert hnh; decide
  have n58 : ¬ (ipv6_record buf off (l2_record buf off 0x86DD)).ip_proto.val = 58 := by
    rw [hproto]; intro h; rw [h] at hnh; revert hnh; decide
  have s16 : (bytesAt buf (off + 8) 16).length = 16 := bytesAt_length (by omega)
  have d16 : (bytesAt buf (off + 24) 16).length = 16 := bytesAt_length (by omega)
  have hs : memcpy zero_packet.src_ip (bytesAt buf (off + 8) 16) = bytesAt buf (off + 8) 16 :=
    memcpy_full (by rw [s16]; rfl)
  have hds : memcpy zero_packet.dst_ip (bytesAt buf (off + 24) 16)
      = bytesAt buf (off + 24) 16 :=
    memcpy_full (by rw [d16]; rfl)
  rw [if_neg n6, if_neg n17, if_neg n1, if_neg n58] at hp
  by_cases c0 : (ipv6_record buf off (l2_record buf off 0x86DD)).ip_payload_len = 0
  · rw [if_pos c0] at hp
    exact ⟨_, hp, rfl, rfl, rfl, rfl, hs, hds, rfl, rfl, rfl⟩
  · rw [if_neg c0] at hp
    exact ⟨_, hp, rfl, rfl, rfl, rfl, hs, hds, rfl, rfl, rfl⟩

/-- On the frame `pkt6` with Next Header 0: `PP_OK`, `ip_proto = 0`, `L4_NONE`,
hop limit 64, payload length 8 and L4 offset 54. -/
theorem parse_packet_ipv6_extension_witness :
    ∃ r, parse_packet pkt6_hop_by_hop pkt6_hop_by_hop.length = some (PP_OK, r) ∧
      r.l3 = L3_IPV6 ∧
      r.ip_proto = 0 ∧
      r.l4 = L4_NONE ∧
      r.ip_ttl_hop = 64 ∧
      r.src_ip = [0x20,0x01,0x0d,0xb8,0,0,0,0,0,0,0,0,0,0,0,0x01] ∧
      r.dst_ip = [0x20,0x01,0x0d,0xb8,0,0,0,0,0,0,0,0,0,0,0,0x02] ∧
      r.l3_len = 40 ∧
      r.ip_payload_len = 8 ∧
      r.l4_offset = 54 :=
  parse_packet_ipv6_extension pkt6_hop_by_hop 14 (by decide) (by decide) (by decide)
    (by decide)

/-! ### Invariants of a `PP_OK` record -/

theorem link_done_off {buf : List Byte} {off e : Nat} (h : link_done buf = some (off, e)) :
    off = 14 ∨ off = 18 ∨ off = 22 := by
  unfold link_done at h
  split_ifs at h <;> simp only [Option.some.injEq, Prod.mk.injEq] at h <;> omega

/-- C15. Structural invariant of every `PP_OK` record: `vlan_count` is 0, 1 or
2, `l2_len = 14 + 4 × vlan_count`, `ethertype` is 0x0800 or 0x86DD, `l3` is
`L3_IPV4` with `20 ≤ l3_len ≤ 60` or `L3_IPV6` with `l3_len = 40`, and
`l4_offset = l2_len + l3_len`. -/
theorem parse_packet_ok_structure (buf : List Byte) (r : parsed_packet)
    (h : parse_packet buf buf.length = some (PP_OK, r)) :
    (r.vlan_count = 0 ∨ r.vlan_count = 1 ∨ r.vlan_count = 2) ∧
    (r.l2_len : Int) = 14 + 4 * r.vlan_count ∧
    (r.ethertype = 0x0800 ∨ r.ethertype = 0x86DD) ∧
    ((r.l3 = L3_IPV4 ∧ 20 ≤ r.l3_len ∧ r.l3_len ≤ 60) ∨
      (r.l3 = L3_IPV6 ∧ r.l3_len = 40)) ∧
    r.l4_offset = r.l2_len + r.l3_len := by
  obtain ⟨o, out, hn, ht⟩ := network_done_of_ok buf r h
  have hf := network_done_facts hn
  obtain ⟨-, -, -, hcnt, het, hl2, hl3, -, -, -, -, -, hl3len, hl4⟩ :=
    transport_stage_frame buf o out r PP_OK (by omega) ht
  rw [hcnt, het, hl2, hl3, hl3len, hl4]
  obtain ⟨off, e, hd, hc⟩ := network_done_inv hn
  have hoff := link_done_off hd
  have hl := ipv4_hlen_le buf off
  rcases hc with ⟨rfl, -, -, c3, -, -, rfl, rfl⟩ | ⟨rfl, -, -, -, rfl, rfl⟩
  · refine ⟨?_, ?_, Or.inl rfl, Or.inl ⟨rfl, c3, hl⟩, rfl⟩
    · rcases hoff with rfl | rfl | rfl
      · exact Or.inl rfl
      · exact Or.inr (Or.inl rfl)
      · exact Or.inr (Or.inr rfl)
    · rcases hoff with rfl | rfl | rfl <;> rfl
  · refine ⟨?_, ?_, Or.inr rfl, Or.inr ⟨rfl, rfl⟩, rfl⟩
    · rcases hoff with rfl | rfl | rfl
      · exact Or.inl rfl
      · exact Or.inr (Or.inl rfl)
      · exact Or.inr (Or.inr rfl)
    · rcases hoff with rfl | rfl | rfl <;> rfl

/-- On the two-tag frame `vlan2_pkt`: `vlan_count = 2`, `l2_len = 22`,
`l3_len = 20` and `l4_offset = 42`. -/
theorem parse_packet_ok_structure_witness :
    ∃ r, parse_packet vlan2_pkt vlan2_pkt.length = some (PP_OK, r) ∧
      ((r.vlan_count = 0 ∨ r.vlan_count = 1 ∨ r.vlan_count = 2) ∧
      (r.l2_len : Int) = 14 + 4 * r.vlan_count ∧
      (r.ethertype = 0x0800 ∨ r.ethertype = 0x86DD) ∧
      ((r.l3 = L3_IPV4 ∧ 20 ≤ r.l3_len ∧ r.l3_len ≤ 60) ∨
        (r.l3 = L3_IPV6 ∧ r.l3_len = 40)) ∧
      r.l4_offset = r.l2_len + r.l3_len) := by
  obtain ⟨r, hr⟩ := exists_of_status
    (show (parse_packet vlan2_pkt vlan2_pkt.length).map Prod.fst = some PP_OK by decide)
  exact ⟨r, hr, parse_packet_ok_structure vlan2_pkt r hr⟩

/-- C16. Bounds invariant of every `PP_OK` record: `l2_len ≤ l4_offset`,
`l4_offset + ip_payload_len ≤ len`, and for IPv4 the header length `H` (four
times the low nibble of `byte[l2_len]`) is at most the Total Length `T` (bytes
`l2_len+2..l2_len+3`) and `ip_payload_len = T − H`. -/
theorem parse_packet_ok_bounds (buf : List Byte) (r : parsed_packet)
    (h : parse_packet buf buf.length = some (PP_OK, r)) :
    r.l2_len ≤ r.l4_offset ∧
    r.l4_offset + r.ip_payload_len ≤ buf.length ∧
    (r.l3 = L3_IPV4 →
      4 * ((byteAt buf r.l2_len).val % 16) ≤ be16At buf (r.l2_len + 2) ∧
      (r.ip_payload_len : Int)
        = (be16At buf (r.l2_len + 2) : Int) - (4 * ((byteAt buf r.l2_len).val % 16) : Nat)) := by
  obtain ⟨o, out, hn, ht⟩ := network_done_of_ok buf r h
  have hf := network_done_facts hn
  obtain ⟨-, -, -, -, -, hl2, hl3, -, -, -, -, hpl, -, hl4⟩ :=
    transport_stage_frame buf o out r PP_OK (by omega) ht
  rw [hl2, hl3, hpl, hl4]
  obtain ⟨off, e, hd, hc⟩ := network_done_inv hn
  rcases hc with ⟨rfl, -, -, c3, c4, c5, rfl, rfl⟩ | ⟨rfl, -, -, c3, rfl, rfl⟩
  · have hH : ipv4_hlen buf off = 4 * ((byteAt buf off).val % 16) := rfl
    simp only [ipv4_record, l2_record]
    refine ⟨by omega, by omega, fun _ => ⟨by omega, by omega⟩⟩
  · simp only [ipv6_record, l2_record]
    refine ⟨by omega, by omega, fun h4 => by cases h4⟩

/-- On the fixture of `main.c`: `14 ≤ 34`, `34 + 12 ≤ 46`, and `12 = 32 − 20`. -/
theorem parse_packet_ok_bounds_witness :
    ∃ r, parse_packet pkt pkt.length = some (PP_OK, r) ∧
      (r.l2_len ≤ r.l4_offset ∧
      r.l4_offset + r.ip_payload_len ≤ pkt.length ∧
      (r.l3 = L3_IPV4 →
        4 * ((byteAt pkt r.l2_len).val % 16) ≤ be16At pkt (r.l2_len + 2) ∧
        (r.ip_payload_len : Int)
          = (be16At pkt (r.l2_len + 2) : Int)
            - (4 * ((byteAt pkt r.l2_len).val % 16) : Nat))) := by
  obtain ⟨r, hr⟩ := exists_of_status
    (show (parse_packet pkt pkt.length).map Prod.fst = some PP_OK by decide)
  exact ⟨r, hr, parse_packet_ok_bounds pkt r hr⟩

theorem memcpy_drop {dst src : List Byte} {n : Nat} (h : src.length = n) :
    (memcpy dst src).drop n = dst.drop n := by
  unfold memcpy
  rw [List.drop_left' h, h]

/-- C19. Zero defaults of non-applicable fields: in every `PP_OK` record,
`vlan_id[i] = 0` for every index `i` of the array with `i ≥ vlan_count`; when
`l3 = L3_IPV4` bytes 4..15 of `src_ip` and of `dst_ip` are 0; `src_port` and
`dst_port` are 0 unless `l4` is `L4_TCP` or `L4_UDP`; `icmp_type` and
`icmp_code` are 0 unless `l4` is `L4_ICMP` or `L4_ICMPV6`. -/
theorem parse_packet_ok_zero_defaults (buf : List Byte) (r : parsed_packet)
    (h : parse_packet buf buf.length = some (PP_OK, r)) :
    (∀ i : Nat, i < 2 → r.vlan_count ≤ (i : Int) → r.vlan_id.get? i = some 0) ∧
    (r.l3 = L3_IPV4 →
      r.src_ip.drop 4 = List.replicate 12 0 ∧ r.dst_ip.drop 4 = List.replicate 12 0) ∧
    (r.l4 ≠ L4_TCP → r.l4 ≠ L4_UDP → r.src_port = 0 ∧ r.dst_port = 0) ∧
    (r.l4 ≠ L4_ICMP → r.l4 ≠ L4_ICMPV6 → r.icmp_type = 0 ∧ r.icmp_code = 0) := by
  obtain ⟨o, out, hn, ht⟩ := network_done_of_ok buf r h
  have hf := network_done_facts hn
  obtain ⟨ho, -, -, hl4, hsp, hdp, hit, hic⟩ := hf
  obtain ⟨-, -, hid, hcnt, -, -, hl3, hsrc, hdst, -⟩ :=
    transport_stage_frame buf o out r PP_OK (by omega) ht
  refine ⟨?_, ?_, ?_, ?_⟩
  · -- VLAN identifiers
    rw [hid, hcnt]
    obtain ⟨off, e, hd, hc⟩ := network_done_inv hn
    have hv : out.vlan_id = (l2_record buf off e).vlan_id ∧
        out.vlan_count = (l2_record buf off e).vlan_count := by
      rcases hc with ⟨-, -, -, -, -, -, -, rfl⟩ | ⟨-, -, -, -, -, rfl⟩ <;> exact ⟨rfl, rfl⟩
    rw [hv.1, hv.2]
    intro i hi hle
    rcases link_done_off hd with rfl | rfl | rfl
    · have : i = 0 ∨ i = 1 := by omega
      rcases this with rfl | rfl <;> rfl
    · have h1 : (l2_record buf 18 e).vlan_count = 1 := rfl
      rw [h1] at hle
      have : i = 1 := by omega
      subst this
      rfl
    · have h2 : (l2_record buf 22 e).vlan_count = 2 := rfl
      rw [h2] at hle
      omega
  · -- IPv4 addresses
    rw [hl3, hsrc, hdst]
    intro h4
    obtain ⟨off, e, hd, hc⟩ := network_done_inv hn
    rcases hc with ⟨-, c1, -, -, -, -, -, rfl⟩ | ⟨-, -, -, -, -, rfl⟩
    · have s4 : (bytesAt buf (off + 12) 4).length = 4 := bytesAt_length (by omega)
      have d4 : (bytesAt buf (off + 16) 4).length = 4 := bytesAt_length (by omega)
      exact ⟨memcpy_drop s4, memcpy_drop d4⟩
    · cases h4
  · -- ports
    intro nt nu
    rcases transport_stage_ok_cases buf o out r (by omega) ht with
      ⟨-, rfl⟩ | ⟨-, -, -, -, -, -, rfl⟩ | ⟨-, -, -, rfl⟩ | ⟨-, -, -, rfl⟩ |
      ⟨-, -, -, rfl⟩ | ⟨-, -, -, -, -, rfl⟩
    · exact ⟨hsp, hdp⟩
    · exact absurd rfl nt
    · exact absurd rfl nu
    · exact ⟨hsp, hdp⟩
    · exact ⟨hsp, hdp⟩
    · exact ⟨hsp, hdp⟩
  · -- ICMP type and code
    intro ni nj
    rcases transport_stage_ok_cases buf o out r (by omega) ht with
      ⟨-, rfl⟩ | ⟨-, -, -, -, -, -, rfl⟩ | ⟨-, -, -, rfl⟩ | ⟨-, -, -, rfl⟩ |
      ⟨-, -, -, rfl⟩ | ⟨-, -, -, -, -, rfl⟩
    · exact ⟨hit, hic⟩
    · exact ⟨hit, hic⟩
    · exact ⟨hit, hic⟩
    · exact absurd rfl ni
    · exact absurd rfl nj
    · exact ⟨hit, hic⟩

/-- On the fixture of `main.c` (no VLAN, IPv4, UDP): both VLAN identifiers,
bytes 4..15 of both addresses and the ICMP type and code are 0. -/
theorem parse_packet_ok_zero_defaults_witness :
    ∃ r, parse_packet pkt pkt.length = some (PP_OK, r) ∧
      r.vlan_count = 0 ∧ r.l3 = L3_IPV4 ∧ r.l4 = L4_UDP ∧
      ((∀ i : Nat, i < 2 → r.vlan_count ≤ (i : Int) → r.vlan_id.get? i = some 0) ∧
      (r.l3 = L3_IPV4 →
        r.src_ip.drop 4 = List.replicate 12 0 ∧ r.dst_ip.drop 4 = List.replicate 12 0) ∧
      (r.l4 ≠ L4_TCP → r.l4 ≠ L4_UDP → r.src_port = 0 ∧ r.dst_port = 0) ∧
      (r.l4 ≠ L4_ICMP → r.l4 ≠ L4_ICMPV6 → r.icmp_type = 0 ∧ r.icmp_code = 0)) := by
  have hr : parse_packet pkt pkt.length = some (PP_OK,
      { ipv4_record pkt 14 (l2_record pkt 14 0x0800) with
        l4 := L4_UDP, src_port := 12345, dst_port := 80 }) := by decide
  exact ⟨_, hr, rfl, rfl, rfl, parse_packet_ok_zero_defaults pkt _ hr⟩

/-! ### The bounds-check primitive -/

/-- C17, as stated, fails: with `need = 1`, `len = 0` and `off = 2^64 - 1`, all
in the range of `size_t`, the sum `off + need` wraps to 0 and `have` returns
true, although the mathematical sum `2^64` exceeds `len`. -/
theorem have_wraparound_counterexample :
    (1 < 2 ^ 64 ∧ 0 < 2 ^ 64 ∧ 2 ^ 64 - 1 < 2 ^ 64) ∧
    have_ 1 0 (2 ^ 64 - 1) = true ∧
    ¬ ((2 ^ 64 - 1) + 1 ≤ 0) := by
  decide

/-- C17, amended: for every `need`, `len` and `off` whose sum `off + need` is
below `2^64`, so that the addition in `size_t` does not wrap, `have` returns
true if and only if `off + need ≤ len`. -/
theorem have_iff_of_no_wraparound (need len off : Nat) (h : off + need < 2 ^ 64) :
    have_ need len off = true ↔ off + need ≤ len := by
  unfold have_
  rw [Nat.mod_eq_of_lt h, decide_eq_true_iff]

/-- The call `have(14, len, 0)` of line 38 on a buffer of 46 bytes, and the
largest request of `parse_packet`, `have(40 + 65535, len, 22)`, on the same
buffer. -/
theorem have_iff_of_no_wraparound_witness :
    (have_ 14 46 0 = true ↔ 0 + 14 ≤ 46) ∧
    (have_ (40 + 65535) 46 22 = true ↔ 22 + (40 + 65535) ≤ 46) :=
  ⟨have_iff_of_no_wraparound 14 46 0 (by decide),
   have_iff_of_no_wraparound (40 + 65535) 46 22 (by decide)⟩

/-! ### Transport header and IP payload -/

/-- C18 fails on the code.  On the fixture of `main.c` with Total Length 21
(one byte of IP payload, then padding) `parse_packet` returns `PP_OK` with
`l4 = L4_UDP`, `ip_payload_len = 1` and the ports 12345 and 80 of bytes 34-37;
with protocol number 1 instead it returns `PP_OK` with `l4 = L4_ICMP`,
`ip_payload_len = 1` and type and code taken from bytes 34 and 35. -/
theorem parse_packet_header_beyond_payload :
    (∃ r, parse_packet pkt_udp_padding pkt_udp_padding.length = some (PP_OK, r) ∧
      r.l4 = L4_UDP ∧ r.ip_payload_len = 1 ∧ r.l4_offset = 34 ∧
      r.src_port = 12345 ∧ r.dst_port = 80) ∧
    (∃ r, parse_packet pkt_icmp_padding pkt_icmp_padding.length = some (PP_OK, r) ∧
      r.l4 = L4_ICMP ∧ r.ip_payload_len = 1 ∧ r.l4_offset = 34 ∧
      r.icmp_type = 0x30 ∧ r.icmp_code = 0x39) := by
  have hu : parse_packet pkt_udp_padding pkt_udp_padding.length = some (PP_OK,
      { ipv4_record pkt_udp_padding 14 (l2_record pkt_udp_padding 14 0x0800) with
        l4 := L4_UDP, src_port := 12345, dst_port := 80 }) := by decide
  have hi : parse_packet pkt_icmp_padding pkt_icmp_padding.length = some (PP_OK,
      { ipv4_record pkt_icmp_padding 14 (l2_record pkt_icmp_padding 14 0x0800) with
        l4 := L4_ICMP, icmp_type := 0x30, icmp_code := 0x39 }) := by decide
  exact ⟨⟨_, hu, rfl, rfl, rfl, rfl, rfl⟩, ⟨_, hi, rfl, rfl, rfl, rfl, rfl⟩⟩

/-! ### A buffer and its prefixes -/

theorem byteAt_append (p s : List Byte) (i : Nat) (h : i < p.length) :
    byteAt (p ++ s) i = byteAt p i :=
  List.getD_append p s 0 i h

theorem be16At_append (p s : List Byte) (i : Nat) (h : i + 2 ≤ p.length) :
    be16At (p ++ s) i = be16At p i := by
  unfold be16At
  rw [byteAt_append p s i (by omega), byteAt_append p s (i + 1) (by omega)]

theorem bytesAt_append (p s : List Byte) (i n : Nat) (h : i + n ≤ p.length) :
    bytesAt (p ++ s) i n = bytesAt p i n := by
  unfold bytesAt
  rw [List.drop_append_of_le_length (by omega),
    List.take_append_of_le_length (by rw [List.length_drop]; omega)]

theorem ip_version_append (p s : List Byte) (i : Nat) (h : i < p.length) :
    ip_version (p ++ s) i = ip_version p i := by
  unfold ip_version
  rw [byteAt_append p s i h]

theorem ipv4_hlen_append (p s : List Byte) (i : Nat) (h : i < p.length) :
    ipv4_hlen (p ++ s) i = ipv4_hlen p i := by
  unfold ipv4_hlen
  rw [byteAt_append p s i h]

theorem tcp_data_offset_append (p s : List Byte) (i : Nat) (h : i + 12 < p.length) :
    tcp_data_offset (p ++ s) i = tcp_data_offset p i := by
  unfold tcp_data_offset
  rw [byteAt_append p s (i + 12) h]

theorem link_done_append (p s : List Byte) (off e : Nat)
    (h : link_done p = some (off, e)) :
    link_done (p ++ s) = some (off, e) := by
  have hl : (p ++ s).length = p.length + s.length := List.length_append p s
  unfold link_done at h ⊢
  rw [hl]
  split_ifs at h with h14 ht0 h18 ht1 h22
  · rw [be16At_append p s 12 (by omega), if_neg (by omega), if_pos ht0]
    exact h
  · rw [be16At_append p s 12 (by omega), be16At_append p s 16 (by omega),
      if_neg (by omega), if_neg ht0, if_neg (by omega), if_pos ht1]
    exact h
  · rw [be16At_append p s 12 (by omega), be16At_append p s 16 (by omega),
      be16At_append p s 20 (by omega),
      if_neg (by omega), if_neg ht0, if_neg (by omega), if_neg ht1, if_neg (by omega)]
    exact h

theorem l2_record_append (p s : List Byte) (off e : Nat)
    (h : link_done p = some (off, e)) :
    l2_record (p ++ s) off e = l2_record p off e := by
  have hb := link_done_bounds h
  unfold l2_record
  rw [bytesAt_append p s 0 6 (by omega), bytesAt_append p s 6 6 (by omega)]
  rcases link_done_off h with rfl | rfl | rfl
  · rfl
  · rw [be16At_append p s 14 (by omega)]
    rfl
  · rw [be16At_append p s 14 (by omega), be16At_append p s 18 (by omega)]

theorem ipv4_record_append (p s : List Byte) (off : Nat) (out : parsed_packet)
    (h : off + 20 ≤ p.length) :
    ipv4_record (p ++ s) off out = ipv4_record p off out := by
  unfold ipv4_record
  rw [byteAt_append p s (off + 8) (by omega), byteAt_append p s (off + 9) (by omega),
    bytesAt_append p s (off + 12) 4 (by omega), bytesAt_append p s (off + 16) 4 (by omega),
    ipv4_hlen_append p s off (by omega), be16At_append p s (off + 2) (by omega)]

theorem ipv6_record_append (p s : List Byte) (off : Nat) (out : parsed_packet)
    (h : off + 40 ≤ p.length) :
    ipv6_record (p ++ s) off out = ipv6_record p off out := by
  unfold ipv6_record
  rw [byteAt_append p s (off + 7) (by omega), byteAt_append p s (off + 6) (by omega),
    bytesAt_append p s (off + 8) 16 (by omega), bytesAt_append p s (off + 24) 16 (by omega),
    be16At_append p s (off + 4) (by omega)]

/-- The IPv4 branch on a prefix: `PP_TRUNCATED`, or the result on the whole
buffer. -/
theorem ipv4_stage_append (p s : List Byte) (off : Nat) (out : parsed_packet)
    (hoff : off ≤ 22) :
    ipv4_stage p p.length off out = some (flow.ret PP_TRUNCATED out) ∨
    ipv4_stage (p ++ s) (p ++ s).length off out = ipv4_stage p p.length off out := by
  have hl : (p ++ s).length = p.length + s.length := List.length_append p s
  by_cases c : p.length < off + 20
  · exact Or.inl (ipv4_stage_short p off out c (by omega))
  · rw [ipv4_stage_eq p off out (by omega) (by omega),
      ipv4_stage_eq (p ++ s) off out (by omega) (by omega),
      ip_version_append p s off (by omega), ipv4_hlen_append p s off (by omega),
      be16At_append p s (off + 2) (by omega), ipv4_record_append p s off out (by omega), hl]
    by_cases c1 : ip_version p off ≠ 4 ∨ ipv4_hlen p off < 20
    · right; rw [if_pos c1, if_pos c1]
    · by_cases c2 : p.length < off + ipv4_hlen p off
      · left; rw [if_neg c1, if_pos c2]
      · by_cases c3 : be16At p (off + 2) < ipv4_hlen p off
        · right
          rw [if_neg c1, if_neg c1, if_neg c2, if_pos c3, if_neg (by omega), if_pos c3]
        · by_cases c4 : p.length < off + be16At p (off + 2)
          · left; rw [if_neg c1, if_neg c2, if_neg c3, if_pos c4]
          · right
            rw [if_neg c1, if_neg c1, if_neg c2, if_neg c3, if_neg c4, if_neg (by omega),
              if_neg c3, if_neg (by omega)]

/-- The IPv6 branch on a prefix: `PP_TRUNCATED`, or the result on the whole
buffer. -/
theorem ipv6_stage_append (p s : List Byte) (off : Nat) (out : parsed_packet)
    (hoff : off ≤ 22) :
    ipv6_stage p p.length off out = some (flow.ret PP_TRUNCATED out) ∨
    ipv6_stage (p ++ s) (p ++ s).length off out = ipv6_stage p p.length off out := by
  have hl : (p ++ s).length = p.length + s.length := List.length_append p s
  by_cases c : p.length < off + 40
  · exact Or.inl (ipv6_stage_short p off out c (by omega))
  · rw [ipv6_stage_eq p off out (by omega) (by omega),
      ipv6_stage_eq (p ++ s) off out (by omega) (by omega),
      ip_version_append p s off (by omega),
      be16At_append p s (off + 4) (by omega), ipv6_record_append p s off out (by omega), hl]
    by_cases c1 : ip_version p off ≠ 6
    · right; rw [if_pos c1, if_pos c1]
    · by_cases c2 : p.length < off + (40 + be16At p (off + 4))
      · left; rw [if_neg c1, if_pos c2]
      · right
        rw [if_neg c1, if_neg c1, if_neg c2, if_neg (by omega)]

/-- The network-layer stage on a prefix: `PP_TRUNCATED`, or the result on the
whole buffer. -/
theorem network_stage_append (p s : List Byte) (off e : Nat) (out : parsed_packet)
    (hoff : off ≤ 22) :
    network_stage p p.length off e out = some (flow.ret PP_TRUNCATED out) ∨
    network_stage (p ++ s) (p ++ s).length off e out = network_stage p p.length off e out := by
  unfold network_stage
  by_cases h4 : e = 0x0800
  · rw [if_pos h4, if_pos h4]
    exact ipv4_stage_append p s off out hoff
  · rw [if_neg h4, if_neg h4]
    by_cases h6 : e = 0x86DD
    · rw [if_pos h6, if_pos h6]
      exact ipv6_stage_append p s off out hoff
    · rw [if_neg h6, if_neg h6]
      exact Or.inr rfl

/-- The transport-layer stage on a prefix: `PP_TRUNCATED`, or the result on the
whole buffer. -/
theorem transport_stage_append (p s : List Byte) (o : Nat) (out : parsed_packet)
    (ho : o ≤ 82) :
    (∃ r, transport_stage p p.length o out = some (PP_TRUNCATED, r)) ∨
    transport_stage (p ++ s) (p ++ s).length o out = transport_stage p p.length o out := by
  have hl : (p ++ s).length = p.length + s.length := List.length_append p s
  rw [transport_stage_eq p o out (by omega), transport_stage_eq (p ++ s) o out (by omega), hl]
  by_cases c0 : out.ip_payload_len = 0
  · right; rw [if_pos c0, if_pos c0]
  · rw [if_neg c0, if_neg c0]
    by_cases p6 : out.ip_proto.val = 6
    · rw [if_pos p6, if_pos p6]
      by_cases c20 : p.length < o + 20
      · left; rw [if_pos c20]; exact ⟨_, rfl⟩
      · rw [if_neg c20, if_neg (by omega : ¬ p.length + s.length < o + 20),
          tcp_data_offset_append p s o (by omega), be16At_append p s o (by omega),
          be16At_append p s (o + 2) (by omega)]
        by_cases d1 : tcp_data_offset p o < 20
        · right; rw [if_pos d1, if_pos d1]
        · rw [if_neg d1, if_neg d1]
          by_cases d2 : p.length < o + tcp_data_offset p o
          · left; rw [if_pos d2]; exact ⟨_, rfl⟩
          · right
            rw [if_neg d2, if_neg (by omega : ¬ p.length + s.length < o + tcp_data_offset p o)]
    · rw [if_neg p6, if_neg p6]
      by_cases p17 : out.ip_proto.val = 17
      · rw [if_pos p17, if_pos p17]
        by_cases c8 : p.length < o + 8
        · left; rw [if_pos c8]; exact ⟨_, rfl⟩
        · right
          rw [if_neg c8, if_neg (by omega : ¬ p.length + s.length < o + 8),
            be16At_append p s o (by omega), be16At_append p s (o + 2) (by omega)]
      · rw [if_neg p17, if_neg p17]
        by_cases p1 : out.ip_proto.val = 1
        · rw [if_pos p1, if_pos p1]
          by_cases c4 : p.length < o + 4
          · left; rw [if_pos c4]; exact ⟨_, rfl⟩
          · right
            rw [if_neg c4, if_neg (by omega : ¬ p.length + s.length < o + 4),
              byteAt_append p s o (by omega), byteAt_append p s (o + 1) (by omega)]
        · rw [if_neg p1, if_neg p1]
          by_cases p58 : out.ip_proto.val = 58
          · rw [if_pos p58, if_pos p58]
            by_cases c4 : p.length < o + 4
            · left; rw [if_pos c4]; exact ⟨_, rfl⟩
            · right
              rw [if_neg c4, if_neg (by omega : ¬ p.length + s.length < o + 4),
                byteAt_append p s o (by omega), byteAt_append p s (o + 1) (by omega)]
          · right; rw [if_neg p58, if_neg p58]

/-- C20. Prefix stability: for every buffer `p ++ s` and its prefix `p`, each
decoded with its own length, `parse_packet` on `p` returns `PP_TRUNCATED`, or
it returns what `parse_packet` returns on `p ++ s`: the same status and the
same record.  So bytes appended to a buffer whose result is not `PP_TRUNCATED`
change neither the status nor the record. -/
theorem parse_packet_prefix_stable (p s : List Byte) :
    (∃ r, parse_packet p p.length = some (PP_TRUNCATED, r)) ∨
    parse_packet (p ++ s) (p ++ s).length = parse_packet p p.length := by
  cases hd : link_done p with
  | none => exact Or.inl (parse_packet_of_not_done p hd)
  | some q =>
    obtain ⟨off, e⟩ := q
    have hoff := (link_done_bounds hd).2.1
    rw [parse_packet_of_done p off e hd,
      parse_packet_of_done (p ++ s) off e (link_done_append p s off e hd),
      l2_record_append p s off e hd]
    obtain ⟨x, hx, hnext⟩ := network_stage_some p off e (l2_record p off e) hoff
    rcases network_stage_append p s off e (l2_record p off e) hoff with ht | heq
    · left
      rw [ht]
      exact ⟨_, rfl⟩
    · rw [heq, hx, Option.some_bind, Option.some_bind]
      cases x with
      | ret st out => exact Or.inr rfl
      | next q =>
        obtain ⟨o, out⟩ := q
        exact transport_stage_append p s o out (hnext o out rfl)

end PacketParser
